import Mathlib

/-!
# libfreefare: tag identification, enumeration and diagnostics

A shallow embedding of `libfreefare/freefare.c`.

* The NFC device, the per-family drivers and the C allocator are external to
  the file.  They are gathered in an environment `Env σ η` of state-passing
  functions: `σ` is the state of the device (and of the cards in its field),
  `η` the state of the heap.
* Every call that goes to the device or to a family driver is recorded, in
  program order, in the `log` of the `World`.
* Pointers that may be `NULL` are `Option`s; a block of memory is a list of
  `Cell`s, each either not yet written (`uninit`) or holding a value.  Sizes
  of blocks are counted in elements (tag pointers, characters), not in bytes.
* `nfc_device *device` is not passed around: the device is the `dev` field of
  the world a function runs in.  The family hooks act on the device only; an
  allocation that fails inside a construct hook shows as the hook returning
  `NULL`.
* The release of a collection records the destructor calls and the `free` of
  the block as events, and marks the block as no longer allocated.  A call
  that reads a block already freed has no defined outcome in C, and none here.
* The definitions come first (the C functions, then the notions the
  specification uses, then a sample reader for the worked examples); the
  theorems follow.
-/

set_option autoImplicit false

namespace Freefare

/-! ## Types of libnfc and of freefare.h that the file uses -/

/-- The `enum freefare_tag_type` values named in the file; `other` stands for
any value of the C enum that is none of them. -/
inductive freefare_tag_type where
  | FELICA
  | MIFARE_CLASSIC_1K
  | MIFARE_CLASSIC_4K
  | MIFARE_DESFIRE
  | MIFARE_ULTRALIGHT_C
  | MIFARE_ULTRALIGHT
  | other (v : Nat)
  deriving DecidableEq, Repr

/-- The `nfc_modulation_type` values named in the file; `other` stands for any
value of the C enum that is none of them. -/
inductive nfc_modulation_type where
  | NMT_ISO14443A
  | NMT_JEWEL
  | NMT_ISO14443B
  | NMT_ISO14443BI
  | NMT_ISO14443B2SR
  | NMT_ISO14443B2CT
  | NMT_FELICA
  | NMT_DEP
  | other (v : Nat)
  deriving DecidableEq, Repr

/-- Baud rates of libnfc. -/
inductive nfc_baud_rate where
  | NBR_UNDEFINED
  | NBR_106
  | NBR_212
  | NBR_424
  | NBR_847
  deriving DecidableEq, Repr

/-- The device properties the file sets. -/
inductive nfc_property where
  | NP_ACTIVATE_FIELD
  | NP_HANDLE_CRC
  | NP_HANDLE_PARITY
  | NP_AUTO_ISO14443_4
  deriving DecidableEq, Repr

/-- The C `struct nfc_modulation`. -/
structure nfc_modulation where
  nmt : nfc_modulation_type
  nbr : nfc_baud_rate
  deriving DecidableEq, Repr

/-- The ISO14443A view of a target (`nfc_iso14443a_info`).  Bytes are naturals,
reduced modulo 256 where they are read; `abtUid` is the 10-byte array. -/
structure nfc_iso14443a_info where
  abtAtqa : List Nat
  btSak : Nat
  szUidLen : Nat
  abtUid : List Nat
  szAtsLen : Nat
  abtAts : List Nat
  deriving DecidableEq, Repr

/-- The FeliCA view of a target (`nfc_felica_info`); `abtId` is the 8-byte
IDm. -/
structure nfc_felica_info where
  szLen : Nat
  btResCode : Nat
  abtId : List Nat
  abtPad : List Nat
  abtSysCode : List Nat
  deriving DecidableEq, Repr

/-- The C union `nfc_target_info`, kept as one record per view: the file reads
`nai` only under `NMT_ISO14443A` and `nfi` only under `NMT_FELICA`. -/
structure nfc_target_info where
  nai : nfc_iso14443a_info
  nfi : nfc_felica_info
  deriving DecidableEq, Repr

/-- The C `struct nfc_target`. -/
structure nfc_target where
  nti : nfc_target_info
  nm : nfc_modulation
  deriving DecidableEq, Repr

/-- What `*FreefareTag` holds, as far as the file reads it: the family, the
copy of the target, and for a DESFire tag the two error codes reached through
the `MIFARE_DESFIRE (tag)` cast. -/
structure FreefareTag where
  type : freefare_tag_type
  info : nfc_target
  last_pcd_error : Nat
  last_picc_error : Nat
  deriving DecidableEq, Repr

/-- One cell of an allocated block: fresh from `malloc`/`realloc` it is
`uninit`, after a store it holds the stored value. -/
inductive Cell (α : Type) where
  | uninit
  | val (a : α)
  deriving DecidableEq, Repr

/-- A call to the device or to a family driver. -/
inductive Call where
  | nfc_initiator_init
  | nfc_device_set_property_bool (p : nfc_property) (v : Bool)
  | nfc_initiator_list_passive_targets (m : nfc_modulation) (szTargets : Nat)
  | taste (f : freefare_tag_type) (t : nfc_target)
  | tag_new (f : freefare_tag_type) (t : nfc_target)
  deriving DecidableEq, Repr

/-- The external collaborators.  `taste f` and `tag_new f` are the two hooks of
family `f` (`felica_taste`, `felica_tag_new`, ...); a poll returns its `int`
result and the contents of the `candidates` array; `malloc` and `realloc` tell
whether the request for that many elements is granted. -/
structure Env (σ η : Type) where
  nfc_initiator_init : σ → σ
  nfc_device_set_property_bool : nfc_property → Bool → σ → σ
  nfc_initiator_list_passive_targets :
    nfc_modulation → Nat → σ → (Int × (Nat → nfc_target)) × σ
  taste : freefare_tag_type → nfc_target → σ → Bool × σ
  tag_new : freefare_tag_type → nfc_target → σ → Option FreefareTag × σ
  nfc_device_get_last_error : σ → Int
  nfc_strerror : σ → String
  mifare_desfire_error_lookup : Nat → String
  malloc : Nat → η → Bool × η
  realloc : Nat → η → Bool × η

/-- The state the program runs in: device, heap, and the calls made so far. -/
structure World (σ η : Type) where
  dev : σ
  heap : η
  log : List Call
  deriving DecidableEq, Repr

variable {σ η : Type}

/-- `#define MAX_CANDIDATES 16`. -/
def MAX_CANDIDATES : Nat := 16

/-! ## Calls to the collaborators -/

/-- Run the taste hook of family `f` on the target, and record the call. -/
def call_taste (E : Env σ η) (f : freefare_tag_type) (target : nfc_target)
    (w : World σ η) : Bool × World σ η :=
  ((E.taste f target w.dev).1,
   { w with dev := (E.taste f target w.dev).2, log := w.log ++ [Call.taste f target] })

/-- Run the construct hook of family `f` on the target, and record the call. -/
def call_tag_new (E : Env σ η) (f : freefare_tag_type) (target : nfc_target)
    (w : World σ η) : Option FreefareTag × World σ η :=
  ((E.tag_new f target w.dev).1,
   { w with dev := (E.tag_new f target w.dev).2, log := w.log ++ [Call.tag_new f target] })

open freefare_tag_type in
/-- The C function `freefare_tag_new`: the chain of `if (x_taste (device, target))
tag = x_tag_new (device, target); else if ...`, `tag` being `NULL` at first. -/
def freefare_tag_new (E : Env σ η) (target : nfc_target) (w : World σ η) :
    Option FreefareTag × World σ η :=
  match call_taste E FELICA target w with
  | (true, w1) => call_tag_new E FELICA target w1
  | (false, w1) =>
  match call_taste E MIFARE_CLASSIC_1K target w1 with
  | (true, w2) => call_tag_new E MIFARE_CLASSIC_1K target w2
  | (false, w2) =>
  match call_taste E MIFARE_CLASSIC_4K target w2 with
  | (true, w3) => call_tag_new E MIFARE_CLASSIC_4K target w3
  | (false, w3) =>
  match call_taste E MIFARE_DESFIRE target w3 with
  | (true, w4) => call_tag_new E MIFARE_DESFIRE target w4
  | (false, w4) =>
  match call_taste E MIFARE_ULTRALIGHT_C target w4 with
  | (true, w5) => call_tag_new E MIFARE_ULTRALIGHT_C target w5
  | (false, w5) =>
  match call_taste E MIFARE_ULTRALIGHT target w5 with
  | (true, w6) => call_tag_new E MIFARE_ULTRALIGHT target w6
  | (false, w6) => (none, w6)

/-- Record and perform `nfc_initiator_init (device)`; its result is ignored. -/
def call_initiator_init (E : Env σ η) (w : World σ η) : World σ η :=
  { w with dev := E.nfc_initiator_init w.dev, log := w.log ++ [Call.nfc_initiator_init] }

/-- Record and perform `nfc_device_set_property_bool (device, p, v)`; its result
is ignored. -/
def call_set_property_bool (E : Env σ η) (p : nfc_property) (v : Bool)
    (w : World σ η) : World σ η :=
  { w with dev := E.nfc_device_set_property_bool p v w.dev,
           log := w.log ++ [Call.nfc_device_set_property_bool p v] }

/-- Record and perform `nfc_initiator_list_passive_targets (device, m,
candidates, szTargets)`: the `int` result and the `candidates` array. -/
def call_list_passive_targets (E : Env σ η) (m : nfc_modulation) (szTargets : Nat)
    (w : World σ η) : (Int × (Nat → nfc_target)) × World σ η :=
  ((E.nfc_initiator_list_passive_targets m szTargets w.dev).1,
   { w with dev := (E.nfc_initiator_list_passive_targets m szTargets w.dev).2,
            log := w.log ++ [Call.nfc_initiator_list_passive_targets m szTargets] })

/-- Ask the allocator for a fresh block of `n` elements. -/
def call_malloc (E : Env σ η) (n : Nat) (w : World σ η) : Bool × World σ η :=
  ((E.malloc n w.heap).1, { w with heap := (E.malloc n w.heap).2 })

/-- Ask the allocator to resize a block to `n` elements. -/
def call_realloc (E : Env σ η) (n : Nat) (w : World σ η) : Bool × World σ η :=
  ((E.realloc n w.heap).1, { w with heap := (E.realloc n w.heap).2 })

/-- The block a successful `malloc` of `n` elements returns. -/
def malloc_block (α : Type) (n : Nat) : List (Cell α) :=
  List.replicate n Cell.uninit

/-- The block a successful `realloc` of `old` to `n` elements returns: the old
contents up to the smaller of the two sizes, the rest not initialised. -/
def realloc_block {α : Type} (old : List (Cell α)) (n : Nat) : List (Cell α) :=
  old.take n ++ List.replicate (n - old.length) Cell.uninit

/-! ## `freefare_get_tags` -/

/-- The array `FreefareTag *tags`: each cell a tag pointer, possibly `NULL`. -/
abbrev TagArray := List (Cell (Option FreefareTag))

/-- How one of the two `for` loops of `freefare_get_tags` ends: by the
`return tags` inside it, or by running to its end with the current `tags` and
`tag_count`. -/
inductive LoopExit where
  | returned (tags : TagArray)
  | finished (tags : TagArray) (tag_count : Nat)
  deriving DecidableEq, Repr

/-- The loop `for (int c = 0; c < candidates_count; c++)` of `freefare_get_tags`,
the same in both rounds.  The first argument is the number of iterations left,
`candidates_count - c`. -/
def tags_loop (E : Env σ η) (candidates : Nat → nfc_target) :
    Nat → Nat → TagArray → Nat → World σ η → LoopExit × World σ η
  | 0, _, tags, tag_count, w => (LoopExit.finished tags tag_count, w)
  | n + 1, c, tags, tag_count, w =>
    match freefare_tag_new E (candidates c) w with
    | (some t, w1) =>
      match call_realloc E (tag_count + 2) w1 with
      | (true, w2) =>
        let p := realloc_block tags (tag_count + 2)
        let p1 := p.set tag_count (Cell.val (some t))
        let p2 := p1.set (tag_count + 1) (Cell.val none)
        tags_loop E candidates n (c + 1) p2 (tag_count + 1) w2
      | (false, w2) => (LoopExit.returned tags, w2)
    | (none, w1) => tags_loop E candidates n (c + 1) tags tag_count w1

/-- The five `nfc_device_set_property_bool` calls that follow
`nfc_initiator_init` in `freefare_get_tags`. -/
def configure_device (E : Env σ η) (w : World σ η) : World σ η :=
  let w1 := call_initiator_init E w
  let w2 := call_set_property_bool E nfc_property.NP_ACTIVATE_FIELD false w1
  let w3 := call_set_property_bool E nfc_property.NP_HANDLE_CRC true w2
  let w4 := call_set_property_bool E nfc_property.NP_HANDLE_PARITY true w3
  let w5 := call_set_property_bool E nfc_property.NP_AUTO_ISO14443_4 true w4
  call_set_property_bool E nfc_property.NP_ACTIVATE_FIELD true w5

/-- The part of `freefare_get_tags` from `// Poll for a FELICA tag` on. -/
def felica_round (E : Env σ η) (tags : TagArray) (tag_count : Nat) (w : World σ η) :
    Option TagArray × World σ η :=
  match call_list_passive_targets E
      ⟨nfc_modulation_type.NMT_FELICA, nfc_baud_rate.NBR_424⟩ MAX_CANDIDATES w with
  | ((candidates_count, candidates), w1) =>
    if candidates_count < 0 then (none, w1)
    else
      match tags_loop E candidates candidates_count.toNat 0 tags tag_count w1 with
      | (LoopExit.returned tags1, w2) => (some tags1, w2)
      | (LoopExit.finished tags1 _, w2) => (some tags1, w2)

/-- The C function `freefare_get_tags`.  The result is the returned pointer:
`none` for `NULL`, else the block it points to. -/
def freefare_get_tags (E : Env σ η) (w : World σ η) : Option TagArray × World σ η :=
  let w0 := configure_device E w
  match call_list_passive_targets E
      ⟨nfc_modulation_type.NMT_ISO14443A, nfc_baud_rate.NBR_106⟩ MAX_CANDIDATES w0 with
  | ((candidates_count, candidates), w1) =>
    if candidates_count < 0 then (none, w1)
    else
      match call_malloc E 1 w1 with
      | (false, w2) => (none, w2)
      | (true, w2) =>
        let tags := (malloc_block (Option FreefareTag) 1).set 0 (Cell.val none)
        match tags_loop E candidates candidates_count.toNat 0 tags 0 w2 with
        | (LoopExit.returned tags1, w3) => (some tags1, w3)
        | (LoopExit.finished tags1 tag_count, w3) => felica_round E tags1 tag_count w3

/-- What a reader of the `NULL`-terminated array sees: the tags before the
first `NULL`; nothing (`none`) if it meets a cell never written or the end of
the block first. -/
def tags_of : TagArray → Option (List FreefareTag)
  | [] => none
  | Cell.uninit :: _ => none
  | Cell.val none :: _ => some []
  | Cell.val (some t) :: rest => (tags_of rest).map (fun ts => t :: ts)

/-! ## Identity and diagnostics -/

open freefare_tag_type in
/-- The C function `freefare_get_tag_friendly_name`: a `switch` on `tag->type`
with a `default`. -/
def freefare_get_tag_friendly_name (tag : FreefareTag) : String :=
  match tag.type with
  | FELICA => "FeliCA"
  | MIFARE_CLASSIC_1K => "Mifare Classic 1k"
  | MIFARE_CLASSIC_4K => "Mifare Classic 4k"
  | MIFARE_DESFIRE => "Mifare DESFire"
  | MIFARE_ULTRALIGHT_C => "Mifare UltraLightC"
  | MIFARE_ULTRALIGHT => "Mifare UltraLight"
  | other _ => "UNKNOWN"

/-- The terminating character of a C string. -/
def NUL : Char := Char.ofNat 0

/-- The `uint8_t` read by `a[i]`. -/
def byte_at (a : List Nat) (i : Nat) : Nat :=
  a.getD i 0 % 256

/-- The text `printf` produces for `"%02x"`: the number in lower-case
hexadecimal, padded with zeros on the left to two characters. -/
def fmt_02x (v : Nat) : List Char :=
  let ds := Nat.toDigits 16 v
  List.replicate (2 - ds.length) '0' ++ ds

/-- Store the characters `cs` in the buffer from offset `off` on. -/
def poke (buf : List (Cell Char)) (off : Nat) : List Char → List (Cell Char)
  | [] => buf
  | c :: cs => poke (buf.set off (Cell.val c)) (off + 1) cs

/-- The call `snprintf (res + off, size, "%02x", v)`: at most `size - 1`
characters of the text, then the terminator; nothing when `size` is 0. -/
def snprintf_02x (buf : List (Cell Char)) (off size v : Nat) : List (Cell Char) :=
  if size = 0 then buf
  else poke buf off ((fmt_02x v).take (size - 1) ++ [NUL])

/-- The loop `for (size_t i = 0; i < n; i++) snprintf (res + 2*i, 3, "%02x",
a[i])` of `freefare_get_tag_uid`.  The second argument is the number of
iterations left. -/
def uid_loop (a : List Nat) : Nat → Nat → List (Cell Char) → List (Cell Char)
  | 0, _, res => res
  | n + 1, i, res => uid_loop a n (i + 1) (snprintf_02x res (2 * i) 3 (byte_at a i))

/-- The C library function `strdup`: a fresh block holding the string and its
terminator, or `NULL`. -/
def strdup (E : Env σ η) (s : String) (w : World σ η) :
    Option (List (Cell Char)) × World σ η :=
  match call_malloc E (s.length + 1) w with
  | (true, w1) => (some (poke (malloc_block Char (s.length + 1)) 0 (s.toList ++ [NUL])), w1)
  | (false, w1) => (none, w1)

open nfc_modulation_type in
/-- The C function `freefare_get_tag_uid`: a `switch` on `tag->info.nm.nmt`
without a `default`; `res` is `NULL` at first.  The result is the returned
pointer: `none` for `NULL`, else the block it points to. -/
def freefare_get_tag_uid (E : Env σ η) (tag : FreefareTag) (w : World σ η) :
    Option (List (Cell Char)) × World σ η :=
  match tag.info.nm.nmt with
  | NMT_FELICA =>
    match call_malloc E 17 w with
    | (true, w1) => (some (uid_loop tag.info.nti.nfi.abtId 8 0 (malloc_block Char 17)), w1)
    | (false, w1) => (none, w1)
  | NMT_ISO14443A =>
    match call_malloc E (2 * tag.info.nti.nai.szUidLen + 1) w with
    | (true, w1) =>
      (some (uid_loop tag.info.nti.nai.abtUid tag.info.nti.nai.szUidLen 0
        (malloc_block Char (2 * tag.info.nti.nai.szUidLen + 1))), w1)
    | (false, w1) => (none, w1)
  | NMT_DEP => strdup E "UNKNOWN" w
  | NMT_ISO14443B2CT => strdup E "UNKNOWN" w
  | NMT_ISO14443B2SR => strdup E "UNKNOWN" w
  | NMT_ISO14443B => strdup E "UNKNOWN" w
  | NMT_ISO14443BI => strdup E "UNKNOWN" w
  | NMT_JEWEL => strdup E "UNKNOWN" w
  | other _ => (none, w)

/-- The C string a reader of the buffer sees: the characters before the first
terminator; nothing (`none`) if it meets a cell never written or the end of the
block first. -/
def cstring : List (Cell Char) → Option (List Char)
  | [] => none
  | Cell.uninit :: _ => none
  | Cell.val c :: rest => if c = NUL then some [] else (cstring rest).map (fun s => c :: s)

/-- The C function `freefare_strerror`; `p` is `"Unknown error"` at first. -/
def freefare_strerror (E : Env σ η) (tag : FreefareTag) (w : World σ η) : String :=
  let p := "Unknown error"
  if E.nfc_device_get_last_error w.dev < 0 then
    E.nfc_strerror w.dev
  else if tag.type = freefare_tag_type.MIFARE_DESFIRE then
    if tag.last_pcd_error ≠ 0 then
      E.mifare_desfire_error_lookup tag.last_pcd_error
    else if tag.last_picc_error ≠ 0 then
      E.mifare_desfire_error_lookup tag.last_picc_error
    else p
  else p

/-! ## What the specification says, in its own terms -/

open freefare_tag_type in
/-- The fixed order in which the dispatcher is specified to try the families. -/
def priority : List freefare_tag_type :=
  [FELICA, MIFARE_CLASSIC_1K, MIFARE_CLASSIC_4K, MIFARE_DESFIRE,
   MIFARE_ULTRALIGHT_C, MIFARE_ULTRALIGHT]

/-- First-match dispatch as the specification words it: for each family of the
list in turn invoke its taste hook; the first hook returning true wins and its
construct hook produces the handle; if no family accepts, not identified. -/
def first_match (E : Env σ η) (target : nfc_target) :
    List freefare_tag_type → World σ η → Option FreefareTag × World σ η
  | [], w => (none, w)
  | f :: fs, w =>
    if (call_taste E f target w).1 then call_tag_new E f target (call_taste E f target w).2
    else first_match E target fs (call_taste E f target w).2

/-- The world after the taste hooks of the listed families have run, one after
the other. -/
def after_tastes (E : Env σ η) (target : nfc_target) :
    List freefare_tag_type → World σ η → World σ η
  | [], w => w
  | f :: fs, w => after_tastes E target fs (call_taste E f target w).2

/-- Whether the taste hooks of the listed families, run one after the other,
all return false. -/
def all_reject (E : Env σ η) (target : nfc_target) :
    List freefare_tag_type → World σ η → Bool
  | [], _ => true
  | f :: fs, w =>
    !(call_taste E f target w).1 && all_reject E target fs (call_taste E f target w).2

/-- The dispatcher run on each candidate in turn: the handles it returns, in
candidate order, the candidates it does not identify being left out. -/
def identify_all (E : Env σ η) : List nfc_target → World σ η → List FreefareTag × World σ η
  | [], w => ([], w)
  | t :: ts, w =>
    match (freefare_tag_new E t w).1 with
    | some h =>
      (h :: (identify_all E ts (freefare_tag_new E t w).2).1,
       (identify_all E ts (freefare_tag_new E t w).2).2)
    | none => identify_all E ts (freefare_tag_new E t w).2

/-- The candidates a poll reports: the first `count` entries of the array. -/
def candidates_of (r : Int × (Nat → nfc_target)) : List nfc_target :=
  (List.range r.1.toNat).map r.2

/-- A collection holding exactly the given handles: one cell per handle, in
order, then the terminator, and nothing after it. -/
def collection (hs : List FreefareTag) : TagArray :=
  hs.map (fun h => Cell.val (some h)) ++ [Cell.val none]

/-- The lower-case hexadecimal digit of a number below 16. -/
def hexdigit (d : Nat) : Char :=
  "0123456789abcdef".toList.getD d '?'

/-- Hex encoding as the specification words it: lower-case, two characters per
byte (high digit, then low digit), no separators. -/
def hex_encode : List Nat → List Char
  | [] => []
  | b :: bs => hexdigit (b / 16) :: hexdigit (b % 16) :: hex_encode bs

/-- A buffer holding exactly the given C string: its characters, then the
terminator, and nothing after it. -/
def cbuffer (s : List Char) : List (Cell Char) :=
  s.map Cell.val ++ [Cell.val NUL]

/-- The first poll of `freefare_get_tags`, on the configured device. -/
def first_poll (E : Env σ η) (w : World σ η) : (Int × (Nat → nfc_target)) × World σ η :=
  call_list_passive_targets E
    ⟨nfc_modulation_type.NMT_ISO14443A, nfc_baud_rate.NBR_106⟩ MAX_CANDIDATES
    (configure_device E w)

/-- The handles the dispatcher returns for the candidates of the first poll. -/
def first_round (E : Env σ η) (w : World σ η) : List FreefareTag × World σ η :=
  identify_all E (candidates_of (first_poll E w).1) (first_poll E w).2

/-- The second poll of `freefare_get_tags`, issued once the first round is
over. -/
def second_poll (E : Env σ η) (w : World σ η) : (Int × (Nat → nfc_target)) × World σ η :=
  call_list_passive_targets E
    ⟨nfc_modulation_type.NMT_FELICA, nfc_baud_rate.NBR_424⟩ MAX_CANDIDATES
    (first_round E w).2

/-- The handles the dispatcher returns for the candidates of the second
poll. -/
def second_round (E : Env σ η) (w : World σ η) : List FreefareTag × World σ η :=
  identify_all E (candidates_of (second_poll E w).1) (second_poll E w).2

/-! ## A concrete reader, for the worked examples -/

/-- An ISO14443A target with the given SAK and UID. -/
def iso14443a_target (sak : Nat) (uid : List Nat) : nfc_target :=
  { nti := { nai := { abtAtqa := [0, 4], btSak := sak, szUidLen := uid.length,
                      abtUid := uid ++ List.replicate (10 - uid.length) 0,
                      szAtsLen := 0, abtAts := [] },
             nfi := { szLen := 0, btResCode := 0, abtId := List.replicate 8 0,
                      abtPad := List.replicate 8 0, abtSysCode := [0, 0] } },
    nm := ⟨nfc_modulation_type.NMT_ISO14443A, nfc_baud_rate.NBR_106⟩ }

/-- A FeliCA target with the given IDm. -/
def felica_target (idm : List Nat) : nfc_target :=
  { nti := { nai := { abtAtqa := [0, 0], btSak := 0, szUidLen := 0,
                      abtUid := List.replicate 10 0, szAtsLen := 0, abtAts := [] },
             nfi := { szLen := 20, btResCode := 1, abtId := idm,
                      abtPad := List.replicate 8 0, abtSysCode := [0, 0] } },
    nm := ⟨nfc_modulation_type.NMT_FELICA, nfc_baud_rate.NBR_424⟩ }

/-- A target whose modulation class is set as given. -/
def target_of_class (m : nfc_modulation_type) : nfc_target :=
  { felica_target (List.replicate 8 0) with nm := ⟨m, nfc_baud_rate.NBR_106⟩ }

/-- A handle of the given family for the given target, with no error
recorded. -/
def tag_of (f : freefare_tag_type) (t : nfc_target) : FreefareTag :=
  { type := f, info := t, last_pcd_error := 0, last_picc_error := 0 }

open freefare_tag_type nfc_modulation_type in
/-- Taste hooks of a sample driver set: FeliCA by modulation class, the others
by class and SAK; Ultralight-C and Ultralight both accept SAK 0, the first
only if `probe` (the authentication probe) answers. -/
def sample_taste (probe : Bool) (f : freefare_tag_type) (t : nfc_target) : Bool :=
  match f with
  | FELICA => decide (t.nm.nmt = NMT_FELICA)
  | MIFARE_CLASSIC_1K => decide (t.nm.nmt = NMT_ISO14443A ∧ t.nti.nai.btSak = 8)
  | MIFARE_CLASSIC_4K => decide (t.nm.nmt = NMT_ISO14443A ∧ t.nti.nai.btSak = 24)
  | MIFARE_DESFIRE => decide (t.nm.nmt = NMT_ISO14443A ∧ t.nti.nai.btSak = 32)
  | MIFARE_ULTRALIGHT_C => decide (t.nm.nmt = NMT_ISO14443A ∧ t.nti.nai.btSak = 0) && probe
  | MIFARE_ULTRALIGHT => decide (t.nm.nmt = NMT_ISO14443A ∧ t.nti.nai.btSak = 0)
  | freefare_tag_type.other _ => false

/-- A sample reader.  Its device state counts the polls made; a poll for
ISO14443A reports `cardsA`, a poll for FeliCA reports `cardsF`, unless the
poll is the one numbered `failing_poll`, which returns -1.  Its heap state
counts the requests made; a request for `failing_size` elements is refused. -/
def sample_env (cardsA cardsF : List nfc_target) (probe : Bool)
    (failing_poll failing_size : Option Nat) : Env Nat Nat :=
  { nfc_initiator_init := fun s => s
    nfc_device_set_property_bool := fun _ _ s => s
    nfc_initiator_list_passive_targets := fun m _ s =>
      if failing_poll = some s then ((-1, fun _ => felica_target []), s + 1)
      else
        match m.nmt with
        | nfc_modulation_type.NMT_ISO14443A =>
          (((cardsA.length : Nat), fun i => cardsA.getD i (felica_target [])), s + 1)
        | nfc_modulation_type.NMT_FELICA =>
          (((cardsF.length : Nat), fun i => cardsF.getD i (felica_target [])), s + 1)
        | _ => ((0, fun _ => felica_target []), s + 1)
    taste := fun f t s => (sample_taste probe f t, s)
    tag_new := fun f t s => (some (tag_of f t), s)
    nfc_device_get_last_error := fun s => if failing_poll = some (s - 1) then -1 else 0
    nfc_strerror := fun s => if failing_poll = some (s - 1) then "Input / Output Error" else "Success"
    mifare_desfire_error_lookup := fun c =>
      if c = 174 then "AUTHENTICATION_ERROR" else if c = 157 then "PERMISSION_ERROR"
      else "Invalid error code"
    malloc := fun n h => (decide (failing_size ≠ some n), h + 1)
    realloc := fun n h => (decide (failing_size ≠ some n), h + 1) }

/-- The world before anything has run on the sample reader. -/
def world0 : World Nat Nat := { dev := 0, heap := 0, log := [] }

/-- A Mifare Classic 1k card with UID `DE AD BE EF`. -/
def card_classic : nfc_target := iso14443a_target 8 [0xDE, 0xAD, 0xBE, 0xEF]

/-- A card with SAK 0: Ultralight or Ultralight-C. -/
def card_ultralight : nfc_target := iso14443a_target 0 [4, 0x11, 0x22, 0x33, 0x44, 0x55, 0x66]

/-- An ISO14443A card no family accepts. -/
def card_unknown : nfc_target := iso14443a_target 0x42 [1, 2, 3, 4]

/-- A FeliCA card with IDm `01 23 45 67 89 AB CD EF`. -/
def card_felica : nfc_target := felica_target [0x01, 0x23, 0x45, 0x67, 0x89, 0xAB, 0xCD, 0xEF]

/-- The UID of an ISO14443A handle: the first `szUidLen` bytes of `abtUid`. -/
def uid_bytes (tag : FreefareTag) : List Nat :=
  (tag.info.nti.nai.abtUid.take tag.info.nti.nai.szUidLen).map (fun b => b % 256)

/-- The IDm of a FeliCA handle: the bytes of `abtId`. -/
def idm_bytes (tag : FreefareTag) : List Nat :=
  tag.info.nti.nfi.abtId.map (fun b => b % 256)

/-- The characters a lower-case hex string is made of. -/
def hexchars : List Char := "0123456789abcdef".toList

/-- Two worlds that differ at most in their heap: the device and the calls made
are the same. -/
def same_dev (w w' : World σ η) : Prop :=
  w.dev = w'.dev ∧ w.log = w'.log

/-! ## The registry, the buffer-writing error message, the release -/

/-- The one liveness probe the registry refers to. -/
inductive reader_check where
  | is_mifare_ultralightc_on_reader
  deriving DecidableEq, Repr

/-- Modelled from the spec: the declaration of `struct supported_tag` is not in
the file.  The fields are those of the Card Family Descriptor, in the order of
the initialisers of `supported_tags`: family tag, display name, modulation
class, expected SAK, the two lengths and the pattern for the historical bytes,
and the optional probe (`NULL` when there is none). -/
structure supported_tag where
  type : freefare_tag_type
  friendly_name : String
  modulation_type : nfc_modulation_type
  SAK : Nat
  ATS_min_length : Nat
  ATS_compare_length : Nat
  ATS : List Nat
  check_tag_on_reader : Option reader_check
  deriving DecidableEq, Repr

open freefare_tag_type nfc_modulation_type in
/-- The table `supported_tags`, entry by entry. -/
def supported_tags : List supported_tag :=
  [ ⟨FELICA, "FeliCA", NMT_FELICA, 0x00, 0, 0, [0x00], none⟩,
    ⟨MIFARE_CLASSIC_1K, "Mifare Classic 1k", NMT_ISO14443A, 0x08, 0, 0, [0x00], none⟩,
    ⟨MIFARE_CLASSIC_1K, "Mifare Classic 1k (Emulated)", NMT_ISO14443A, 0x28, 0, 0, [0x00], none⟩,
    ⟨MIFARE_CLASSIC_1K, "Mifare Classic 1k (Emulated)", NMT_ISO14443A, 0x68, 0, 0, [0x00], none⟩,
    ⟨MIFARE_CLASSIC_1K, "Infineon Mifare Classic 1k", NMT_ISO14443A, 0x88, 0, 0, [0x00], none⟩,
    ⟨MIFARE_CLASSIC_4K, "Mifare Classic 4k", NMT_ISO14443A, 0x18, 0, 0, [0x00], none⟩,
    ⟨MIFARE_CLASSIC_4K, "Mifare Classic 4k (Emulated)", NMT_ISO14443A, 0x38, 0, 0, [0x00], none⟩,
    ⟨MIFARE_DESFIRE, "Mifare DESFire", NMT_ISO14443A, 0x20, 5, 4, [0x75, 0x77, 0x81, 0x02], none⟩,
    ⟨MIFARE_DESFIRE, "Cyanogenmod card emulation", NMT_ISO14443A, 0x60, 4, 3,
      [0x78, 0x33, 0x88], none⟩,
    ⟨MIFARE_DESFIRE, "Android HCE", NMT_ISO14443A, 0x60, 4, 3, [0x78, 0x80, 0x70], none⟩,
    ⟨MIFARE_ULTRALIGHT_C, "Mifare UltraLightC", NMT_ISO14443A, 0x00, 0, 0, [0x00],
      some reader_check.is_mifare_ultralightc_on_reader⟩,
    ⟨MIFARE_ULTRALIGHT, "Mifare UltraLight", NMT_ISO14443A, 0x00, 0, 0, [0x00], none⟩ ]

/-- The runs of a list: each maximal block of equal neighbours, once. -/
def runs {α : Type} [DecidableEq α] : List α → List α
  | [] => []
  | [a] => [a]
  | a :: b :: rest => if a = b then runs (b :: rest) else a :: runs (b :: rest)

/-- The call `snprintf (buffer, size, "%s", s)`.  The result is negative when
the library reports an output error (`failed`), and else the length of the
whole text; the buffer receives at most `size - 1` characters of the text and
the terminator, nothing when `size` is 0. -/
def snprintf_s (buffer : List (Cell Char)) (size : Nat) (s : String) (failed : Bool) :
    Int × List (Cell Char) :=
  if failed then (-1, buffer)
  else
    ((s.length : Int),
     if size = 0 then buffer else poke buffer 0 (s.toList.take (size - 1) ++ [NUL]))

/-- The C function `freefare_strerror_r`: the result, and the buffer after the
call. -/
def freefare_strerror_r (E : Env σ η) (tag : FreefareTag) (buffer : List (Cell Char))
    (len : Nat) (w : World σ η) (failed : Bool) : Int × List (Cell Char) :=
  if (snprintf_s buffer len (freefare_strerror E tag w) failed).1 < 0 then
    (-1, (snprintf_s buffer len (freefare_strerror E tag w) failed).2)
  else (0, (snprintf_s buffer len (freefare_strerror E tag w) failed).2)

/-- A call made while releasing: the destructor of a handle,
`tag->free_tag (tag)`, or `free (tags)` on the block of the collection. -/
inductive FreeCall where
  | free_tag (tag : FreefareTag)
  | free (cells : TagArray)
  deriving DecidableEq, Repr

/-- The block a `FreefareTag *` points to: its cells, and whether it is still
allocated.  `free` ends the life of the block; reading it afterwards is a use
of freed storage. -/
structure TagBlock where
  cells : TagArray
  live : Bool
  deriving DecidableEq, Repr

/-- The C function `freefare_free_tag`: `if (tag) tag->free_tag (tag)`. -/
def freefare_free_tag (tag : Option FreefareTag) : List FreeCall :=
  match tag with
  | some t => [FreeCall.free_tag t]
  | none => []

/-- The loop `for (int i=0; tags[i]; i++) freefare_free_tag (tags[i])`, on the
cells from `tags[i]` on: the calls made up to the first `NULL`.  The read of a
cell never written, or past the end of the block, has no defined outcome
(`none`). -/
def free_loop : TagArray → Option (List FreeCall)
  | [] => none
  | Cell.uninit :: _ => none
  | Cell.val none :: _ => some []
  | Cell.val (some t) :: rest =>
    (free_loop rest).map (fun cs => freefare_free_tag (some t) ++ cs)

/-- The C function `freefare_free_tags`: the calls made, and the block the
caller's pointer refers to after the call.  The pointer is passed by value and
no cell is stored to, so the caller is left with a pointer to the freed block.
When the block is no longer allocated, `tags[0]` is read from freed storage
(and the block would be freed a second time): C defines no outcome, and the
result is `none`. -/
def freefare_free_tags (tags : Option TagBlock) : Option (List FreeCall × Option TagBlock) :=
  match tags with
  | none => some ([], none)
  | some b =>
    if b.live then
      (free_loop b.cells).map
        (fun cs => (cs ++ [FreeCall.free b.cells], some { b with live := false }))
    else none

/-- Whether a call is one the dispatcher makes: a taste or a construct hook. -/
def is_dispatch : Call → Bool
  | Call.taste _ _ => true
  | Call.tag_new _ _ => true
  | _ => false

/-- The calls `freefare_get_tags` starts with, whatever follows. -/
def opening_calls : List Call :=
  [Call.nfc_initiator_init,
   Call.nfc_device_set_property_bool nfc_property.NP_ACTIVATE_FIELD false,
   Call.nfc_device_set_property_bool nfc_property.NP_HANDLE_CRC true,
   Call.nfc_device_set_property_bool nfc_property.NP_HANDLE_PARITY true,
   Call.nfc_device_set_property_bool nfc_property.NP_AUTO_ISO14443_4 true,
   Call.nfc_device_set_property_bool nfc_property.NP_ACTIVATE_FIELD true,
   Call.nfc_initiator_list_passive_targets
     ⟨nfc_modulation_type.NMT_ISO14443A, nfc_baud_rate.NBR_106⟩ 16]

/-- The second poll as the specification has it: FeliCA, 424 kbps, at most 16
candidates. -/
def felica_poll_call : Call :=
  Call.nfc_initiator_list_passive_targets
    ⟨nfc_modulation_type.NMT_FELICA, nfc_baud_rate.NBR_424⟩ 16

/-- The invariant of the collection for a given `tag_count`: the slots below
`tag_count` hold non-null handles, slot `tag_count` holds `NULL`, and the block
has room for at least `tag_count + 1` slots. -/
def tags_inv (tags : TagArray) (tag_count : Nat) : Prop :=
  (∀ i, i < tag_count → ∃ h, tags[i]? = some (Cell.val (some h)))
    ∧ tags[tag_count]? = some (Cell.val none)
    ∧ tag_count + 1 ≤ tags.length

/-- The value of a lower-case hex digit. -/
def hexval (c : Char) : Nat :=
  hexchars.indexOf c

/-- Decoding of a hex string, two characters per byte. -/
def hex_decode : List Char → List Nat
  | a :: b :: rest => (16 * hexval a + hexval b) :: hex_decode rest
  | _ => []

/-- An ISO14443A handle of family Classic 1k with the given UID. -/
def classic_tag (uid : List Nat) : FreefareTag :=
  tag_of freefare_tag_type.MIFARE_CLASSIC_1K (iso14443a_target 8 uid)

end Freefare

namespace Freefare

variable {σ η : Type}

/-! ## The dispatcher -/

theorem call_taste_log (E : Env σ η) (f : freefare_tag_type) (t : nfc_target) (w : World σ η) :
    (call_taste E f t w).2.log = w.log ++ [Call.taste f t] := rfl

theorem call_tag_new_log (E : Env σ η) (f : freefare_tag_type) (t : nfc_target)
    (w : World σ η) :
    (call_tag_new E f t w).2.log = w.log ++ [Call.tag_new f t] := rfl

theorem freefare_tag_new_unfold (E : Env σ η) (target : nfc_target) (w : World σ η) :
    freefare_tag_new E target w = first_match E target priority w := by
  unfold freefare_tag_new
  simp only [priority, first_match]
  repeat' split
  all_goals simp_all

theorem after_tastes_log (E : Env σ η) (t : nfc_target) :
    ∀ (fs : List freefare_tag_type) (w : World σ η),
      (after_tastes E t fs w).log = w.log ++ fs.map (fun g => Call.taste g t)
  | [], w => by simp [after_tastes]
  | f :: fs, w => by
    simp [after_tastes, after_tastes_log E t fs, call_taste_log]

theorem first_match_none (E : Env σ η) (t : nfc_target) :
    ∀ (fs : List freefare_tag_type) (w : World σ η),
      all_reject E t fs w = true → first_match E t fs w = (none, after_tastes E t fs w)
  | [], w, _ => by simp [first_match, after_tastes]
  | f :: fs, w, h => by
    simp only [all_reject, Bool.and_eq_true, Bool.not_eq_true'] at h
    simp [first_match, after_tastes, h.1, first_match_none E t fs _ h.2]

theorem first_match_at (E : Env σ η) (t : nfc_target) :
    ∀ (fs : List freefare_tag_type) (k : Nat) (f : freefare_tag_type) (w : World σ η),
      fs.get? k = some f →
      all_reject E t (fs.take k) w = true →
      (call_taste E f t (after_tastes E t (fs.take k) w)).1 = true →
      first_match E t fs w
          = call_tag_new E f t (call_taste E f t (after_tastes E t (fs.take k) w)).2
        ∧ (first_match E t fs w).2.log
          = w.log ++ (fs.take (k + 1)).map (fun g => Call.taste g t) ++ [Call.tag_new f t]
  | [], k, f, w, hk, _, _ => by simp at hk
  | g :: gs, 0, f, w, hk, _, hacc => by
    simp only [List.get?_cons_zero, Option.some.injEq] at hk
    subst hk
    simp only [List.take_zero, after_tastes] at hacc
    simp [first_match, after_tastes, hacc, call_tag_new_log, call_taste_log]
  | g :: gs, k + 1, f, w, hk, hrej, hacc => by
    simp only [List.get?_cons_succ] at hk
    simp only [List.take_succ_cons, all_reject, Bool.and_eq_true, Bool.not_eq_true'] at hrej
    simp only [List.take_succ_cons, after_tastes] at hacc
    have ih := first_match_at E t gs k f (call_taste E g t w).2 hk hrej.2 hacc
    simp only [first_match, hrej.1, Bool.false_eq_true, if_false, List.take_succ_cons,
      after_tastes, List.map_cons]
    refine ⟨ih.1, ?_⟩
    rw [ih.2, call_taste_log]
    simp

/-- C1. `freefare_tag_new` is a first-match dispatch over the fixed order FeliCA,
Classic 1k, Classic 4k, DESFire, Ultralight-C, Ultralight.  (1) It is the
first-match run of the specification over that list.  (2) If the tastes of the
`k` first families return false and the taste of the next one, `f`, returns
true, the result is what the construct hook of `f` returns, and the calls made
are those `k + 1` tastes, in order, then the one construct call of `f`: no other
construct hook is invoked.  (3) If all six tastes return false the result is
`NULL` and the calls made are the six tastes only.  (4) In particular, with the
four earlier tastes false and the Ultralight-C taste true the result is built by
the Ultralight-C construct hook, the plain Ultralight taste not being asked; and
(5) with the Ultralight-C taste false and the Ultralight taste true it is built
by the plain Ultralight construct hook. -/
theorem freefare_tag_new_first_match (E : Env σ η) (target : nfc_target) (w : World σ η) :
    freefare_tag_new E target w = first_match E target priority w
    ∧ (∀ (k : Nat) (f : freefare_tag_type), priority.get? k = some f →
        all_reject E target (priority.take k) w = true →
        (call_taste E f target (after_tastes E target (priority.take k) w)).1 = true →
        freefare_tag_new E target w
            = call_tag_new E f target
                (call_taste E f target (after_tastes E target (priority.take k) w)).2
          ∧ (freefare_tag_new E target w).2.log
            = w.log ++ (priority.take (k + 1)).map (fun g => Call.taste g target)
                ++ [Call.tag_new f target])
    ∧ (all_reject E target priority w = true →
        freefare_tag_new E target w = (none, after_tastes E target priority w)
          ∧ (freefare_tag_new E target w).2.log
            = w.log ++ priority.map (fun g => Call.taste g target))
    ∧ (all_reject E target (priority.take 4) w = true →
        (call_taste E freefare_tag_type.MIFARE_ULTRALIGHT_C target
            (after_tastes E target (priority.take 4) w)).1 = true →
        (freefare_tag_new E target w).1
            = (call_tag_new E freefare_tag_type.MIFARE_ULTRALIGHT_C target
                (after_tastes E target (priority.take 5) w)).1
          ∧ Call.taste freefare_tag_type.MIFARE_ULTRALIGHT target
              ∉ (freefare_tag_new E target w).2.log.drop w.log.length)
    ∧ (all_reject E target (priority.take 5) w = true →
        (call_taste E freefare_tag_type.MIFARE_ULTRALIGHT target
            (after_tastes E target (priority.take 5) w)).1 = true →
        (freefare_tag_new E target w).1
            = (call_tag_new E freefare_tag_type.MIFARE_ULTRALIGHT target
                (after_tastes E target priority w)).1) := by
  have hco := freefare_tag_new_unfold E target w
  refine ⟨hco, ?_, ?_, ?_, ?_⟩
  · intro k f hk hrej hacc
    rw [hco]
    exact first_match_at E target priority k f w hk hrej hacc
  · intro hrej
    rw [hco, first_match_none E target priority w hrej]
    exact ⟨rfl, after_tastes_log E target priority w⟩
  · intro hrej hacc
    have h := first_match_at E target priority 4 _ w rfl hrej hacc
    rw [hco]
    refine ⟨by rw [h.1]; rfl, ?_⟩
    rw [h.2]
    simp [priority]
  · intro hrej hacc
    have h := first_match_at E target priority 5 _ w rfl hrej hacc
    rw [hco, h.1]
    rfl

/-- C1, worked example: on a SAK-0 card whose Ultralight-C probe answers, both
Ultralight tastes would accept, and the handle is the Ultralight-C one. -/
theorem freefare_tag_new_first_match_witness :
    all_reject (sample_env [] [] true none none) card_ultralight (priority.take 4) world0 = true
    ∧ sample_taste true freefare_tag_type.MIFARE_ULTRALIGHT card_ultralight = true
    ∧ (freefare_tag_new (sample_env [] [] true none none) card_ultralight world0).1
        = some (tag_of freefare_tag_type.MIFARE_ULTRALIGHT_C card_ultralight) :=
  ⟨by decide, by decide,
   ((freefare_tag_new_first_match (sample_env [] [] true none none) card_ultralight
      world0).2.2.2.1 (by decide) (by decide)).1.trans (by decide)⟩

/-! ## The heap does not bear on the device -/

theorem same_dev_refl (w : World σ η) : same_dev w w := ⟨rfl, rfl⟩

theorem call_taste_same_dev (E : Env σ η) (f : freefare_tag_type) (t : nfc_target)
    {w w' : World σ η} (h : same_dev w w') :
    (call_taste E f t w).1 = (call_taste E f t w').1
      ∧ same_dev (call_taste E f t w).2 (call_taste E f t w').2 := by
  obtain ⟨hd, hl⟩ := h
  simp [call_taste, same_dev, hd, hl]

theorem call_tag_new_same_dev (E : Env σ η) (f : freefare_tag_type) (t : nfc_target)
    {w w' : World σ η} (h : same_dev w w') :
    (call_tag_new E f t w).1 = (call_tag_new E f t w').1
      ∧ same_dev (call_tag_new E f t w).2 (call_tag_new E f t w').2 := by
  obtain ⟨hd, hl⟩ := h
  simp [call_tag_new, same_dev, hd, hl]

theorem first_match_same_dev (E : Env σ η) (t : nfc_target) :
    ∀ (fs : List freefare_tag_type) (w w' : World σ η), same_dev w w' →
      (first_match E t fs w).1 = (first_match E t fs w').1
        ∧ same_dev (first_match E t fs w).2 (first_match E t fs w').2
  | [], w, w', h => by simpa [first_match] using h
  | f :: fs, w, w', h => by
    have ht := call_taste_same_dev E f t h
    simp only [first_match, ← ht.1]
    by_cases hb : (call_taste E f t w).1 = true
    · simp only [hb, if_true]
      exact call_tag_new_same_dev E f t ht.2
    · simp only [hb, if_false]
      exact first_match_same_dev E t fs _ _ ht.2

theorem freefare_tag_new_same_dev (E : Env σ η) (t : nfc_target) {w w' : World σ η}
    (h : same_dev w w') :
    (freefare_tag_new E t w).1 = (freefare_tag_new E t w').1
      ∧ same_dev (freefare_tag_new E t w).2 (freefare_tag_new E t w').2 := by
  rw [freefare_tag_new_unfold, freefare_tag_new_unfold]
  exact first_match_same_dev E t priority w w' h

theorem call_realloc_same_dev (E : Env σ η) (n : Nat) (w : World σ η) :
    same_dev (call_realloc E n w).2 w := ⟨rfl, rfl⟩

theorem call_malloc_same_dev (E : Env σ η) (n : Nat) (w : World σ η) :
    same_dev (call_malloc E n w).2 w := ⟨rfl, rfl⟩

theorem same_dev_trans {w1 w2 w3 : World σ η} (h : same_dev w1 w2) (h' : same_dev w2 w3) :
    same_dev w1 w3 := ⟨h.1.trans h'.1, h.2.trans h'.2⟩

theorem call_list_passive_targets_same_dev (E : Env σ η) (m : nfc_modulation) (sz : Nat)
    {w w' : World σ η} (h : same_dev w w') :
    (call_list_passive_targets E m sz w).1 = (call_list_passive_targets E m sz w').1
      ∧ same_dev (call_list_passive_targets E m sz w).2
          (call_list_passive_targets E m sz w').2 := by
  obtain ⟨hd, hl⟩ := h
  simp [call_list_passive_targets, same_dev, hd, hl]

/-! ## The collection -/

theorem set_two_after_map {α β : Type} (f : α → β) (a b x y : β) :
    ∀ hs : List α,
      ((hs.map f ++ [a, b]).set hs.length x).set (hs.length + 1) y = hs.map f ++ [x, y]
  | [] => by simp
  | h :: hs => by
    have ih := set_two_after_map f a b x y hs
    simp only [List.map_cons, List.cons_append, List.length_cons, List.set_cons_succ, ih]

theorem collection_length (hs : List FreefareTag) : (collection hs).length = hs.length + 1 := by
  simp [collection]

theorem collection_grow (hs : List FreefareTag) (t : FreefareTag) :
    ((realloc_block (collection hs) (hs.length + 2)).set hs.length (Cell.val (some t))).set
        (hs.length + 1) (Cell.val none)
      = collection (hs ++ [t]) := by
  have hlen := collection_length hs
  have htake : (collection hs).take (hs.length + 2) = collection hs :=
    List.take_of_length_le (by omega)
  unfold realloc_block
  rw [htake, hlen]
  have h1 : hs.length + 2 - (hs.length + 1) = 1 := by omega
  rw [h1]
  simp only [collection, List.replicate_one, List.append_assoc, List.singleton_append,
    List.map_append, List.map_cons, List.map_nil]
  exact set_two_after_map _ _ _ _ _ hs

theorem tags_of_collection : ∀ hs : List FreefareTag, tags_of (collection hs) = some hs
  | [] => rfl
  | h :: hs => by
    have ih := tags_of_collection hs
    have hc : collection (h :: hs) = Cell.val (some h) :: collection hs := rfl
    rw [hc, tags_of, ih]
    rfl

/-! ## The two loops of `freefare_get_tags` -/

theorem identify_all_cons_some (E : Env σ η) (t : nfc_target) (ts : List nfc_target)
    (w : World σ η) (h : FreefareTag) (hh : (freefare_tag_new E t w).1 = some h) :
    identify_all E (t :: ts) w
      = (h :: (identify_all E ts (freefare_tag_new E t w).2).1,
         (identify_all E ts (freefare_tag_new E t w).2).2) := by
  simp only [identify_all, hh]

theorem identify_all_cons_none (E : Env σ η) (t : nfc_target) (ts : List nfc_target)
    (w : World σ η) (hh : (freefare_tag_new E t w).1 = none) :
    identify_all E (t :: ts) w = identify_all E ts (freefare_tag_new E t w).2 := by
  simp only [identify_all, hh]

theorem tags_loop_succ_none (E : Env σ η) (cands : Nat → nfc_target) (n c : Nat)
    (tags : TagArray) (tc : Nat) (w : World σ η)
    (hh : (freefare_tag_new E (cands c) w).1 = none) :
    tags_loop E cands (n + 1) c tags tc w
      = tags_loop E cands n (c + 1) tags tc (freefare_tag_new E (cands c) w).2 := by
  rcases hr : freefare_tag_new E (cands c) w with ⟨r, w1⟩
  rw [hr] at hh
  simp only at hh
  subst hh
  simp only [tags_loop, hr]

theorem tags_loop_succ_grow (E : Env σ η) (cands : Nat → nfc_target) (n c : Nat)
    (tags : TagArray) (tc : Nat) (w : World σ η) (t : FreefareTag)
    (hh : (freefare_tag_new E (cands c) w).1 = some t)
    (ha : (E.realloc (tc + 2) (freefare_tag_new E (cands c) w).2.heap).1 = true) :
    tags_loop E cands (n + 1) c tags tc w
      = tags_loop E cands n (c + 1)
          (((realloc_block tags (tc + 2)).set tc (Cell.val (some t))).set (tc + 1)
            (Cell.val none))
          (tc + 1) (call_realloc E (tc + 2) (freefare_tag_new E (cands c) w).2).2 := by
  rcases hr : freefare_tag_new E (cands c) w with ⟨r, w1⟩
  rw [hr] at hh ha
  simp only at hh ha
  subst hh
  simp only [tags_loop, hr, call_realloc, ha]

theorem tags_loop_succ_fail (E : Env σ η) (cands : Nat → nfc_target) (n c : Nat)
    (tags : TagArray) (tc : Nat) (w : World σ η) (t : FreefareTag)
    (hh : (freefare_tag_new E (cands c) w).1 = some t)
    (ha : (E.realloc (tc + 2) (freefare_tag_new E (cands c) w).2.heap).1 = false) :
    tags_loop E cands (n + 1) c tags tc w
      = (LoopExit.returned tags,
         (call_realloc E (tc + 2) (freefare_tag_new E (cands c) w).2).2) := by
  rcases hr : freefare_tag_new E (cands c) w with ⟨r, w1⟩
  rw [hr] at hh ha
  simp only at hh ha
  subst hh
  simp only [tags_loop, hr, call_realloc, ha]

theorem tags_loop_finishes (E : Env σ η) (cands : Nat → nfc_target) (K : Nat)
    (hok : ∀ m h, m < K → (E.realloc m h).1 = true) :
    ∀ (n c : Nat) (hs : List FreefareTag) (w w' : World σ η), same_dev w w' →
      hs.length + (identify_all E ((List.range' c n).map cands) w').1.length + 2 ≤ K →
      ∃ w2, tags_loop E cands n c (collection hs) hs.length w
          = (LoopExit.finished
              (collection (hs ++ (identify_all E ((List.range' c n).map cands) w').1))
              (hs.length + (identify_all E ((List.range' c n).map cands) w').1.length), w2)
        ∧ same_dev w2 (identify_all E ((List.range' c n).map cands) w').2
  | 0, c, hs, w, w', hsd, _ => by
    refine ⟨w, ?_, ?_⟩
    · simp [tags_loop, identify_all]
    · simpa [identify_all] using hsd
  | n + 1, c, hs, w, w', hsd, hK => by
    have hnew := freefare_tag_new_same_dev E (cands c) hsd
    have hrange : (List.range' c (n + 1)).map cands
        = cands c :: (List.range' (c + 1) n).map cands := by
      simp [List.range'_succ]
    rw [hrange] at hK ⊢
    cases hh : (freefare_tag_new E (cands c) w).1 with
    | none =>
      have hh' : (freefare_tag_new E (cands c) w').1 = none := by rw [← hnew.1, hh]
      rw [identify_all_cons_none E _ _ _ hh'] at hK ⊢
      rw [tags_loop_succ_none E cands n c _ _ w hh]
      exact tags_loop_finishes E cands K hok n (c + 1) hs _ _ hnew.2 hK
    | some t =>
      have hh' : (freefare_tag_new E (cands c) w').1 = some t := by rw [← hnew.1, hh]
      rw [identify_all_cons_some E _ _ _ t hh'] at hK ⊢
      simp only [List.length_cons] at hK
      have ha := hok (hs.length + 2) (freefare_tag_new E (cands c) w).2.heap (by omega)
      rw [tags_loop_succ_grow E cands n c _ _ w t hh ha, collection_grow]
      have hsd2 : same_dev (call_realloc E (hs.length + 2) (freefare_tag_new E (cands c) w).2).2
          (freefare_tag_new E (cands c) w').2 :=
        same_dev_trans (call_realloc_same_dev E _ _) hnew.2
      have hlen : (hs ++ [t]).length = hs.length + 1 := by simp
      have ih := tags_loop_finishes E cands K hok n (c + 1) (hs ++ [t]) _ _ hsd2
        (by rw [hlen]; omega)
      rw [hlen] at ih
      obtain ⟨w2, h1, h2⟩ := ih
      refine ⟨w2, ?_, h2⟩
      rw [h1]
      simp only [List.append_assoc, List.singleton_append, List.length_cons, Prod.mk.injEq,
        and_true, LoopExit.finished.injEq, true_and]
      omega

theorem tags_loop_returns (E : Env σ η) (cands : Nat → nfc_target) (K : Nat)
    (hok : ∀ m h, m < K → (E.realloc m h).1 = true)
    (hfail : ∀ h, (E.realloc K h).1 = false) :
    ∀ (n c : Nat) (hs : List FreefareTag) (w w' : World σ η), same_dev w w' →
      hs.length + 2 ≤ K →
      K < hs.length + (identify_all E ((List.range' c n).map cands) w').1.length + 2 →
      ∃ w2, tags_loop E cands n c (collection hs) hs.length w
          = (LoopExit.returned
              (collection (hs ++ (identify_all E ((List.range' c n).map cands) w').1.take
                (K - (hs.length + 2)))), w2)
  | 0, c, hs, w, w', _, hlo, hK => by
    simp [identify_all] at hK
    omega
  | n + 1, c, hs, w, w', hsd, hlo, hK => by
    have hnew := freefare_tag_new_same_dev E (cands c) hsd
    have hrange : (List.range' c (n + 1)).map cands
        = cands c :: (List.range' (c + 1) n).map cands := by
      simp [List.range'_succ]
    rw [hrange] at hK ⊢
    cases hh : (freefare_tag_new E (cands c) w).1 with
    | none =>
      have hh' : (freefare_tag_new E (cands c) w').1 = none := by rw [← hnew.1, hh]
      rw [identify_all_cons_none E _ _ _ hh'] at hK ⊢
      rw [tags_loop_succ_none E cands n c _ _ w hh]
      exact tags_loop_returns E cands K hok hfail n (c + 1) hs _ _ hnew.2 hlo hK
    | some t =>
      have hh' : (freefare_tag_new E (cands c) w').1 = some t := by rw [← hnew.1, hh]
      rw [identify_all_cons_some E _ _ _ t hh'] at hK ⊢
      simp only [List.length_cons] at hK
      by_cases hKeq : K = hs.length + 2
      · have ha := hfail (freefare_tag_new E (cands c) w).2.heap
        rw [hKeq] at ha
        rw [tags_loop_succ_fail E cands n c _ _ w t hh ha]
        refine ⟨(call_realloc E (hs.length + 2) (freefare_tag_new E (cands c) w).2).2, ?_⟩
        simp [hKeq]
      · have ha := hok (hs.length + 2) (freefare_tag_new E (cands c) w).2.heap (by omega)
        rw [tags_loop_succ_grow E cands n c _ _ w t hh ha, collection_grow]
        have hsd2 : same_dev
            (call_realloc E (hs.length + 2) (freefare_tag_new E (cands c) w).2).2
            (freefare_tag_new E (cands c) w').2 :=
          same_dev_trans (call_realloc_same_dev E _ _) hnew.2
        have hlen : (hs ++ [t]).length = hs.length + 1 := by simp
        have ih := tags_loop_returns E cands K hok hfail n (c + 1) (hs ++ [t]) _ _ hsd2
          (by rw [hlen]; omega) (by rw [hlen]; omega)
        rw [hlen] at ih
        obtain ⟨w2, h1⟩ := ih
        refine ⟨w2, ?_⟩
        rw [h1]
        have hsub : K - (hs.length + 2) = (K - (hs.length + 1 + 2)) + 1 := by omega
        rw [hsub, List.take_succ_cons]
        simp

/-! ## `freefare_get_tags` as a whole -/

theorem felica_round_eq (E : Env σ η) (tags : TagArray) (tc : Nat) (w : World σ η) :
    felica_round E tags tc w
      = if (call_list_passive_targets E
              ⟨nfc_modulation_type.NMT_FELICA, nfc_baud_rate.NBR_424⟩ MAX_CANDIDATES w).1.1 < 0
        then (none, (call_list_passive_targets E
              ⟨nfc_modulation_type.NMT_FELICA, nfc_baud_rate.NBR_424⟩ MAX_CANDIDATES w).2)
        else
          match tags_loop E
              (call_list_passive_targets E
                ⟨nfc_modulation_type.NMT_FELICA, nfc_baud_rate.NBR_424⟩ MAX_CANDIDATES w).1.2
              (call_list_passive_targets E
                ⟨nfc_modulation_type.NMT_FELICA, nfc_baud_rate.NBR_424⟩ MAX_CANDIDATES w).1.1.toNat
              0 tags tc
              (call_list_passive_targets E
                ⟨nfc_modulation_type.NMT_FELICA, nfc_baud_rate.NBR_424⟩ MAX_CANDIDATES w).2 with
          | (LoopExit.returned tags1, w2) => (some tags1, w2)
          | (LoopExit.finished tags1 _, w2) => (some tags1, w2) := by
  rfl

theorem freefare_get_tags_eq (E : Env σ η) (w : World σ η) :
    freefare_get_tags E w
      = if (first_poll E w).1.1 < 0 then (none, (first_poll E w).2)
        else
          match call_malloc E 1 (first_poll E w).2 with
          | (false, w2) => (none, w2)
          | (true, w2) =>
            match tags_loop E (first_poll E w).1.2 (first_poll E w).1.1.toNat 0
                (collection []) 0 w2 with
            | (LoopExit.returned tags1, w3) => (some tags1, w3)
            | (LoopExit.finished tags1 tag_count, w3) => felica_round E tags1 tag_count w3 := by
  rfl

theorem first_poll_log (E : Env σ η) (w : World σ η) :
    (first_poll E w).2.log
      = w.log ++
        [Call.nfc_initiator_init,
         Call.nfc_device_set_property_bool nfc_property.NP_ACTIVATE_FIELD false,
         Call.nfc_device_set_property_bool nfc_property.NP_HANDLE_CRC true,
         Call.nfc_device_set_property_bool nfc_property.NP_HANDLE_PARITY true,
         Call.nfc_device_set_property_bool nfc_property.NP_AUTO_ISO14443_4 true,
         Call.nfc_device_set_property_bool nfc_property.NP_ACTIVATE_FIELD true,
         Call.nfc_initiator_list_passive_targets
           ⟨nfc_modulation_type.NMT_ISO14443A, nfc_baud_rate.NBR_106⟩ 16] := by
  simp [first_poll, call_list_passive_targets, configure_device, call_set_property_bool,
    call_initiator_init, MAX_CANDIDATES]

theorem first_poll_heap (E : Env σ η) (w : World σ η) : (first_poll E w).2.heap = w.heap := rfl

theorem candidates_of_eq (r : Int × (Nat → nfc_target)) :
    candidates_of r = (List.range' 0 r.1.toNat).map r.2 := by
  simp [candidates_of, List.range_eq_range']

theorem felica_round_poll_fails (E : Env σ η) (tags : TagArray) (tc : Nat)
    (w w' : World σ η) (hsd : same_dev w w')
    (hp : (call_list_passive_targets E
            ⟨nfc_modulation_type.NMT_FELICA, nfc_baud_rate.NBR_424⟩ MAX_CANDIDATES w').1.1 < 0) :
    (felica_round E tags tc w).1 = none := by
  have hcl := call_list_passive_targets_same_dev E
    ⟨nfc_modulation_type.NMT_FELICA, nfc_baud_rate.NBR_424⟩ MAX_CANDIDATES hsd
  rw [felica_round_eq, hcl.1, if_pos hp]

theorem felica_round_finishes (E : Env σ η) (K : Nat)
    (hok : ∀ m h, m < K → (E.realloc m h).1 = true)
    (hs : List FreefareTag) (w w' : World σ η) (hsd : same_dev w w')
    (hp : 0 ≤ (call_list_passive_targets E
            ⟨nfc_modulation_type.NMT_FELICA, nfc_baud_rate.NBR_424⟩ MAX_CANDIDATES w').1.1)
    (hK : hs.length + (identify_all E
            (candidates_of (call_list_passive_targets E
              ⟨nfc_modulation_type.NMT_FELICA, nfc_baud_rate.NBR_424⟩ MAX_CANDIDATES w').1)
            (call_list_passive_targets E
              ⟨nfc_modulation_type.NMT_FELICA, nfc_baud_rate.NBR_424⟩ MAX_CANDIDATES w').2).1.length
          + 2 ≤ K) :
    ∃ w2, felica_round E (collection hs) hs.length w
        = (some (collection (hs ++ (identify_all E
            (candidates_of (call_list_passive_targets E
              ⟨nfc_modulation_type.NMT_FELICA, nfc_baud_rate.NBR_424⟩ MAX_CANDIDATES w').1)
            (call_list_passive_targets E
              ⟨nfc_modulation_type.NMT_FELICA, nfc_baud_rate.NBR_424⟩ MAX_CANDIDATES w').2).1)),
           w2)
      ∧ same_dev w2 (identify_all E
            (candidates_of (call_list_passive_targets E
              ⟨nfc_modulation_type.NMT_FELICA, nfc_baud_rate.NBR_424⟩ MAX_CANDIDATES w').1)
            (call_list_passive_targets E
              ⟨nfc_modulation_type.NMT_FELICA, nfc_baud_rate.NBR_424⟩ MAX_CANDIDATES w').2).2 := by
  have hcl := call_list_passive_targets_same_dev E
    ⟨nfc_modulation_type.NMT_FELICA, nfc_baud_rate.NBR_424⟩ MAX_CANDIDATES hsd
  rw [candidates_of_eq] at hK ⊢
  obtain ⟨w2, h1, h2⟩ := tags_loop_finishes E _ K hok _ 0 hs _ _ hcl.2 hK
  rw [felica_round_eq, hcl.1, if_neg (not_lt.mpr hp), h1]
  exact ⟨w2, rfl, h2⟩

theorem felica_round_returns (E : Env σ η) (K : Nat)
    (hok : ∀ m h, m < K → (E.realloc m h).1 = true)
    (hfail : ∀ h, (E.realloc K h).1 = false)
    (hs : List FreefareTag) (w w' : World σ η) (hsd : same_dev w w')
    (hp : 0 ≤ (call_list_passive_targets E
            ⟨nfc_modulation_type.NMT_FELICA, nfc_baud_rate.NBR_424⟩ MAX_CANDIDATES w').1.1)
    (hlo : hs.length + 2 ≤ K)
    (hK : K < hs.length + (identify_all E
            (candidates_of (call_list_passive_targets E
              ⟨nfc_modulation_type.NMT_FELICA, nfc_baud_rate.NBR_424⟩ MAX_CANDIDATES w').1)
            (call_list_passive_targets E
              ⟨nfc_modulation_type.NMT_FELICA, nfc_baud_rate.NBR_424⟩ MAX_CANDIDATES w').2).1.length
          + 2) :
    (felica_round E (collection hs) hs.length w).1
        = some (collection (hs ++ (identify_all E
            (candidates_of (call_list_passive_targets E
              ⟨nfc_modulation_type.NMT_FELICA, nfc_baud_rate.NBR_424⟩ MAX_CANDIDATES w').1)
            (call_list_passive_targets E
              ⟨nfc_modulation_type.NMT_FELICA, nfc_baud_rate.NBR_424⟩ MAX_CANDIDATES w').2).1.take
            (K - (hs.length + 2)))) := by
  have hcl := call_list_passive_targets_same_dev E
    ⟨nfc_modulation_type.NMT_FELICA, nfc_baud_rate.NBR_424⟩ MAX_CANDIDATES hsd
  rw [candidates_of_eq] at hK ⊢
  obtain ⟨w2, h1⟩ := tags_loop_returns E _ K hok hfail _ 0 hs _ _ hcl.2 hlo hK
  rw [felica_round_eq, hcl.1, if_neg (not_lt.mpr hp), h1]

/-- The first round of `freefare_get_tags` when nothing fails in it: the loop
ends with the collection of the handles of the first round. -/
theorem first_loop_finishes (E : Env σ η) (w : World σ η) (K : Nat)
    (hok : ∀ m h, m < K → (E.realloc m h).1 = true)
    (hK : (first_round E w).1.length + 2 ≤ K) :
    ∃ w3, tags_loop E (first_poll E w).1.2 (first_poll E w).1.1.toNat 0
          (collection []) 0 (call_malloc E 1 (first_poll E w).2).2
        = (LoopExit.finished (collection (first_round E w).1) (first_round E w).1.length, w3)
      ∧ same_dev w3 (first_round E w).2 := by
  unfold first_round at hK ⊢
  rw [candidates_of_eq] at hK ⊢
  have h := tags_loop_finishes E (first_poll E w).1.2 K hok (first_poll E w).1.1.toNat 0 []
    _ _ (call_malloc_same_dev E 1 (first_poll E w).2) (by simpa using hK)
  simpa using h

theorem first_loop_returns (E : Env σ η) (w : World σ η) (K : Nat)
    (hok : ∀ m h, m < K → (E.realloc m h).1 = true)
    (hfail : ∀ h, (E.realloc K h).1 = false)
    (hlo : 2 ≤ K) (hK : K < (first_round E w).1.length + 2) :
    ∃ w3, tags_loop E (first_poll E w).1.2 (first_poll E w).1.1.toNat 0
          (collection []) 0 (call_malloc E 1 (first_poll E w).2).2
        = (LoopExit.returned (collection ((first_round E w).1.take (K - 2))), w3) := by
  unfold first_round at hK ⊢
  rw [candidates_of_eq] at hK ⊢
  have h := tags_loop_returns E (first_poll E w).1.2 K hok hfail (first_poll E w).1.1.toNat 0 []
    _ _ (call_malloc_same_dev E 1 (first_poll E w).2) (by simpa using hlo) (by simpa using hK)
  simpa using h

theorem freefare_get_tags_malloc (E : Env σ η) (w : World σ η)
    (hp1 : 0 ≤ (first_poll E w).1.1) (hm : (E.malloc 1 w.heap).1 = true) :
    freefare_get_tags E w
      = match tags_loop E (first_poll E w).1.2 (first_poll E w).1.1.toNat 0
            (collection []) 0 (call_malloc E 1 (first_poll E w).2).2 with
        | (LoopExit.returned tags1, w3) => (some tags1, w3)
        | (LoopExit.finished tags1 tag_count, w3) => felica_round E tags1 tag_count w3 := by
  have hm2 : call_malloc E 1 (first_poll E w).2
      = (true, (call_malloc E 1 (first_poll E w).2).2) := by
    simp [call_malloc, first_poll_heap, hm]
  rw [freefare_get_tags_eq, if_neg (not_lt.mpr hp1)]
  rw [hm2]

/-- When both polls succeed and the allocator grants every request up to the
size needed, `freefare_get_tags` returns the collection of the handles of the
two rounds, and has made the device calls of the two rounds. -/
theorem freefare_get_tags_finishes (E : Env σ η) (w : World σ η) (K : Nat)
    (hp1 : 0 ≤ (first_poll E w).1.1) (hp2 : 0 ≤ (second_poll E w).1.1)
    (hm : (E.malloc 1 w.heap).1 = true)
    (hok : ∀ m h, m < K → (E.realloc m h).1 = true)
    (hK : (first_round E w).1.length + (second_round E w).1.length + 2 ≤ K) :
    ∃ w4, freefare_get_tags E w
        = (some (collection ((first_round E w).1 ++ (second_round E w).1)), w4)
      ∧ same_dev w4 (second_round E w).2 := by
  obtain ⟨w3, h1, hsd⟩ := first_loop_finishes E w K hok (by omega)
  rw [freefare_get_tags_malloc E w hp1 hm, h1]
  exact felica_round_finishes E K hok _ w3 _ hsd hp2 hK

/-- C2 (the code departs from the claim).  On the sample reader with one
Classic 1k card in the field, the first poll reports one candidate, the
dispatcher identifies it, the second poll returns -1, and `freefare_get_tags`
returns `NULL`: the handle of the first round is not returned. -/
theorem freefare_get_tags_second_poll_negative_example :
    (first_poll (sample_env [card_classic] [card_felica] true (some 1) none) world0).1.1 = 1
    ∧ (first_round (sample_env [card_classic] [card_felica] true (some 1) none) world0).1
        = [tag_of freefare_tag_type.MIFARE_CLASSIC_1K card_classic]
    ∧ (second_poll (sample_env [card_classic] [card_felica] true (some 1) none) world0).1.1 = -1
    ∧ (freefare_get_tags (sample_env [card_classic] [card_felica] true (some 1) none)
        world0).1 = none := by
  decide

/-- Whenever the first round goes through and the second poll returns a
negative code, `freefare_get_tags` returns `NULL`. -/
theorem freefare_get_tags_second_poll_negative (E : Env σ η) (w : World σ η)
    (hp1 : 0 ≤ (first_poll E w).1.1) (hp2 : (second_poll E w).1.1 < 0)
    (hm : (E.malloc 1 w.heap).1 = true)
    (hok : ∀ m h, (E.realloc m h).1 = true) :
    (freefare_get_tags E w).1 = none := by
  obtain ⟨w3, h1, hsd⟩ := first_loop_finishes E w ((first_round E w).1.length + 2)
    (fun m h _ => hok m h) (le_refl _)
  rw [freefare_get_tags_malloc E w hp1 hm, h1]
  exact felica_round_poll_fails E _ _ w3 _ hsd hp2

/-- C3. If the first (ISO14443A) poll returns a negative code,
`freefare_get_tags` returns `NULL`, and the calls it has made are the
initialisation, the five property settings and that one poll: no taste or
construct hook is invoked, and no FeliCA poll is issued. -/
theorem freefare_get_tags_first_poll_negative (E : Env σ η) (w : World σ η)
    (h : (first_poll E w).1.1 < 0) :
    (freefare_get_tags E w).1 = none
    ∧ (freefare_get_tags E w).2.log
        = w.log ++
          [Call.nfc_initiator_init,
           Call.nfc_device_set_property_bool nfc_property.NP_ACTIVATE_FIELD false,
           Call.nfc_device_set_property_bool nfc_property.NP_HANDLE_CRC true,
           Call.nfc_device_set_property_bool nfc_property.NP_HANDLE_PARITY true,
           Call.nfc_device_set_property_bool nfc_property.NP_AUTO_ISO14443_4 true,
           Call.nfc_device_set_property_bool nfc_property.NP_ACTIVATE_FIELD true,
           Call.nfc_initiator_list_passive_targets
             ⟨nfc_modulation_type.NMT_ISO14443A, nfc_baud_rate.NBR_106⟩ 16]
    ∧ (∀ f t, Call.taste f t ∉ (freefare_get_tags E w).2.log.drop w.log.length
        ∧ Call.tag_new f t ∉ (freefare_get_tags E w).2.log.drop w.log.length)
    ∧ (∀ nbr sz, Call.nfc_initiator_list_passive_targets
          ⟨nfc_modulation_type.NMT_FELICA, nbr⟩ sz
        ∉ (freefare_get_tags E w).2.log.drop w.log.length) := by
  have hres : freefare_get_tags E w = (none, (first_poll E w).2) := by
    rw [freefare_get_tags_eq, if_pos h]
  rw [hres]
  refine ⟨rfl, first_poll_log E w, ?_, ?_⟩
  · intro f t
    simp [first_poll_log]
  · intro nbr sz
    simp [first_poll_log]

/-- C3, worked example: the sample reader whose first poll fails. -/
theorem freefare_get_tags_first_poll_negative_witness :
    (first_poll (sample_env [card_classic] [card_felica] true (some 0) none) world0).1.1 < 0
    ∧ (freefare_get_tags (sample_env [card_classic] [card_felica] true (some 0) none)
        world0).1 = none :=
  ⟨by decide,
   (freefare_get_tags_first_poll_negative
      (sample_env [card_classic] [card_felica] true (some 0) none) world0 (by decide)).1⟩

/-- C4. When both polls succeed and no allocation fails, `freefare_get_tags`
returns a non-null collection holding exactly the handles the dispatcher
returns for the candidates of the first round, in candidate order, followed by
those of the second round, in candidate order, unidentified candidates left
out, then the terminator; a reader of the array sees exactly these handles; and
with no identified candidate the collection is the terminator alone. -/
theorem freefare_get_tags_collects (E : Env σ η) (w : World σ η)
    (hp1 : 0 ≤ (first_poll E w).1.1) (hp2 : 0 ≤ (second_poll E w).1.1)
    (hm : ∀ n h, (E.malloc n h).1 = true) (hr : ∀ n h, (E.realloc n h).1 = true) :
    (freefare_get_tags E w).1
        = some (collection ((first_round E w).1 ++ (second_round E w).1))
    ∧ (freefare_get_tags E w).1.bind tags_of
        = some ((first_round E w).1 ++ (second_round E w).1)
    ∧ ((first_round E w).1 = [] → (second_round E w).1 = [] →
        (freefare_get_tags E w).1 = some [Cell.val none]) := by
  obtain ⟨w4, h1, _⟩ := freefare_get_tags_finishes E w
    ((first_round E w).1.length + (second_round E w).1.length + 2) hp1 hp2 (hm 1 w.heap)
    (fun m h _ => hr m h) (le_refl _)
  rw [h1]
  refine ⟨rfl, ?_, ?_⟩
  · simp [tags_of_collection]
  · intro e1 e2
    rw [e1, e2]
    rfl

/-- C4, worked example: three ISO14443A cards, one of them unknown, and one
FeliCA card. -/
theorem freefare_get_tags_collects_witness :
    (0 ≤ (first_poll (sample_env [card_classic, card_unknown, card_ultralight] [card_felica]
        true none none) world0).1.1
      ∧ 0 ≤ (second_poll (sample_env [card_classic, card_unknown, card_ultralight]
        [card_felica] true none none) world0).1.1)
    ∧ (freefare_get_tags (sample_env [card_classic, card_unknown, card_ultralight]
        [card_felica] true none none) world0).1
      = some (collection [tag_of freefare_tag_type.MIFARE_CLASSIC_1K card_classic,
          tag_of freefare_tag_type.MIFARE_ULTRALIGHT_C card_ultralight,
          tag_of freefare_tag_type.FELICA card_felica]) :=
  ⟨⟨by decide, by decide⟩,
   (freefare_get_tags_collects
      (sample_env [card_classic, card_unknown, card_ultralight] [card_felica] true none none)
      world0 (by decide) (by decide) (fun _ _ => rfl) (fun _ _ => rfl)).1.trans (by decide)⟩

/-- C5. If growing the collection fails while appending the `k`-th identified
handle (the request for `k + 1` slots is the first one refused), in either
round, the value returned is the collection as it was before that append: the
`k - 1` handles appended before, in order, then the terminator.  (1) One
iteration: when the dispatcher identifies the candidate and `realloc` fails,
the loop returns `tags` untouched.  (2) The failure falls in the first round.
(3) The failure falls in the second round. -/
theorem freefare_get_tags_growth_failure (E : Env σ η) (w : World σ η) (k : Nat)
    (hk : 1 ≤ k) (hp1 : 0 ≤ (first_poll E w).1.1) (hm : (E.malloc 1 w.heap).1 = true)
    (hok : ∀ m h, m < k + 1 → (E.realloc m h).1 = true)
    (hfail : ∀ h, (E.realloc (k + 1) h).1 = false) :
    (∀ (cands : Nat → nfc_target) (n c : Nat) (tags : TagArray) (tc : Nat) (w0 : World σ η)
        (t : FreefareTag), (freefare_tag_new E (cands c) w0).1 = some t →
        (E.realloc (tc + 2) (freefare_tag_new E (cands c) w0).2.heap).1 = false →
        (tags_loop E cands (n + 1) c tags tc w0).1 = LoopExit.returned tags)
    ∧ (k ≤ (first_round E w).1.length →
        (freefare_get_tags E w).1 = some (collection ((first_round E w).1.take (k - 1))))
    ∧ ((first_round E w).1.length < k → 0 ≤ (second_poll E w).1.1 →
        k ≤ (first_round E w).1.length + (second_round E w).1.length →
        (freefare_get_tags E w).1
          = some (collection (((first_round E w).1 ++ (second_round E w).1).take (k - 1)))) := by
  refine ⟨?_, ?_, ?_⟩
  · intro cands n c tags tc w0 t hh ha
    rw [tags_loop_succ_fail E cands n c tags tc w0 t hh ha]
  · intro hle
    obtain ⟨w3, h1⟩ := first_loop_returns E w (k + 1) hok hfail (by omega) (by omega)
    rw [freefare_get_tags_malloc E w hp1 hm, h1]
    simp
  · intro hlt hp2 hle
    obtain ⟨w3, h1, hsd⟩ := first_loop_finishes E w (k + 1) hok (by omega)
    rw [freefare_get_tags_malloc E w hp1 hm, h1]
    have h2 := felica_round_returns E (k + 1) hok hfail (first_round E w).1 w3 _ hsd hp2
      (by omega)
      (by
        show k + 1 < (first_round E w).1.length + (second_round E w).1.length + 2
        omega)
    have htake : ((first_round E w).1 ++ (second_round E w).1).take (k - 1)
        = (first_round E w).1
          ++ (second_round E w).1.take (k + 1 - ((first_round E w).1.length + 2)) := by
      have hsub : k + 1 - ((first_round E w).1.length + 2)
          = k - 1 - (first_round E w).1.length := by omega
      rw [List.take_append_eq_append_take, List.take_of_length_le (by omega), hsub]
    rw [htake]
    exact h2

/-- C5, worked example: the request for 3 slots is refused, so the second
append fails and the collection holds the first handle only. -/
theorem freefare_get_tags_growth_failure_witness :
    (freefare_get_tags (sample_env [card_classic, card_unknown, card_ultralight]
        [card_felica] true none (some 3)) world0).1
      = some (collection [tag_of freefare_tag_type.MIFARE_CLASSIC_1K card_classic]) :=
  ((freefare_get_tags_growth_failure
      (sample_env [card_classic, card_unknown, card_ultralight] [card_felica] true none (some 3))
      world0 2 (by decide) (by decide) (by decide)
      (fun m h hm => by simp [sample_env]; omega)
      (fun h => by simp [sample_env])).2.1 (by decide)).trans (by decide)

/-! ## The UID string -/

theorem set_past_front {α : Type} (x : α) :
    ∀ (pre rest : List α) (k : Nat),
      (pre ++ rest).set (pre.length + k) x = pre ++ rest.set k x
  | [], rest, k => by simp
  | p :: pre, rest, k => by
    have ih := set_past_front x pre rest k
    have hlen : (p :: pre).length + k = (pre.length + k) + 1 := by
      simp only [List.length_cons]; omega
    rw [hlen, List.cons_append, List.set_cons_succ, ih, List.cons_append]

theorem poke_past_front (pre : List (Cell Char)) :
    ∀ (cs : List Char) (rest : List (Cell Char)) (k : Nat),
      poke (pre ++ rest) (pre.length + k) cs = pre ++ poke rest k cs
  | [], rest, k => rfl
  | c :: cs, rest, k => by
    simp only [poke]
    rw [set_past_front, Nat.add_assoc, poke_past_front pre cs]

set_option maxRecDepth 1000000 in
theorem fmt_02x_byte : ∀ v, v < 256 → fmt_02x v = [hexdigit (v / 16), hexdigit (v % 16)] := by
  decide

theorem byte_at_lt (a : List Nat) (i : Nat) : byte_at a i < 256 :=
  Nat.mod_lt _ (by decide)

theorem snprintf_02x_byte (pre : List (Cell Char)) (x r1 r2 : Cell Char)
    (rest : List (Cell Char)) (v : Nat) (hv : v < 256) :
    snprintf_02x (pre ++ x :: r1 :: r2 :: rest) pre.length 3 v
      = (pre ++ [Cell.val (hexdigit (v / 16)), Cell.val (hexdigit (v % 16))])
          ++ Cell.val NUL :: rest := by
  have h := poke_past_front pre [hexdigit (v / 16), hexdigit (v % 16), NUL]
    (x :: r1 :: r2 :: rest) 0
  simp only [Nat.add_zero] at h
  simp only [snprintf_02x, fmt_02x_byte v hv]
  simp only [show (3 : Nat) = 0 ↔ False from by decide, if_false]
  simp only [show (3 : Nat) - 1 = 2 from rfl, List.take, List.cons_append, List.nil_append]
  rw [h]
  simp [poke]

theorem uid_loop_spec (a : List Nat) :
    ∀ (n i : Nat) (pre : List (Cell Char)) (x : Cell Char) (rest : List (Cell Char)),
      pre.length = 2 * i → rest.length = 2 * n →
      uid_loop a n i (pre ++ x :: rest)
        = pre ++ (if n = 0 then [x]
                  else cbuffer (hex_encode ((List.range' i n).map (byte_at a))))
  | 0, i, pre, x, rest, _, hrest => by
    have : rest = [] := List.length_eq_zero.mp (by simpa using hrest)
    simp [uid_loop, this]
  | n + 1, i, pre, x, rest, hpre, hrest => by
    match rest, hrest with
    | r1 :: r2 :: rest2, hrest =>
      have hrest2 : rest2.length = 2 * n := by
        simp only [List.length_cons] at hrest; omega
      have hstep := snprintf_02x_byte pre x r1 r2 rest2 (byte_at a i) (byte_at_lt a i)
      rw [hpre] at hstep
      have hpre2 : (pre ++ [Cell.val (hexdigit (byte_at a i / 16)),
          Cell.val (hexdigit (byte_at a i % 16))]).length = 2 * (i + 1) := by
        simp only [List.length_append, List.length_cons, List.length_nil]; omega
      have ih := uid_loop_spec a n (i + 1) _ (Cell.val NUL) rest2 hpre2 hrest2
      simp only [uid_loop]
      rw [hstep, ih]
      by_cases hn : n = 0
      · subst hn
        simp [cbuffer, hex_encode]
      · simp [hn, cbuffer, hex_encode, List.range'_succ]

theorem hex_encode_length : ∀ bs : List Nat, (hex_encode bs).length = 2 * bs.length
  | [] => rfl
  | b :: bs => by
    simp only [hex_encode, List.length_cons, hex_encode_length bs]
    omega

theorem hexdigit_mem : ∀ d, d < 16 → hexdigit d ∈ hexchars := by
  decide

theorem hexdigit_ne_NUL : ∀ d, d < 16 → hexdigit d ≠ NUL := by
  decide

theorem hex_encode_mem :
    ∀ bs : List Nat, (∀ b ∈ bs, b < 256) → ∀ c ∈ hex_encode bs, c ∈ hexchars ∧ c ≠ NUL
  | [], _, c, hc => by simp [hex_encode] at hc
  | b :: bs, hb, c, hc => by
    have hb0 : b < 256 := hb b (List.mem_cons_self _ _)
    have h1 : b / 16 < 16 := by omega
    have h2 : b % 16 < 16 := by omega
    simp only [hex_encode, List.mem_cons] at hc
    rcases hc with rfl | rfl | hc
    · exact ⟨hexdigit_mem _ h1, hexdigit_ne_NUL _ h1⟩
    · exact ⟨hexdigit_mem _ h2, hexdigit_ne_NUL _ h2⟩
    · exact hex_encode_mem bs (fun x hx => hb x (List.mem_cons_of_mem _ hx)) c hc

theorem hex_encode_getElem? :
    ∀ (bs : List Nat) (i b : Nat), bs[i]? = some b →
      (hex_encode bs)[2 * i]? = some (hexdigit (b / 16))
        ∧ (hex_encode bs)[2 * i + 1]? = some (hexdigit (b % 16))
  | [], i, b, h => by simp at h
  | x :: bs, 0, b, h => by
    simp only [List.getElem?_cons_zero, Option.some.injEq] at h
    subst h
    simp [hex_encode]
  | x :: bs, i + 1, b, h => by
    simp only [List.getElem?_cons_succ] at h
    have ih := hex_encode_getElem? bs i b h
    have e1 : 2 * (i + 1) = (2 * i + 1) + 1 := by omega
    rw [e1]
    simp only [hex_encode, List.getElem?_cons_succ]
    exact ih

theorem cstring_cbuffer : ∀ s : List Char, (∀ c ∈ s, c ≠ NUL) → cstring (cbuffer s) = some s
  | [], _ => by simp [cbuffer, cstring]
  | c :: s, h => by
    have hc : c ≠ NUL := h c (List.mem_cons_self _ _)
    have ih := cstring_cbuffer s (fun x hx => h x (List.mem_cons_of_mem _ hx))
    have e : cbuffer (c :: s) = Cell.val c :: cbuffer s := rfl
    rw [e, cstring, if_neg hc, ih]
    rfl

theorem bytes_read_eq (a : List Nat) :
    ∀ n, n ≤ a.length → (List.range' 0 n).map (byte_at a) = (a.take n).map (fun b => b % 256) := by
  intro n hn
  apply List.ext_getElem?
  intro i
  by_cases hi : i < n
  · have hia : i < a.length := by omega
    simp [List.getElem?_range', hi, byte_at, List.getElem?_take, hia]
  · have h1 : ((List.range' 0 n).map (byte_at a)).length ≤ i := by simp; omega
    have h2 : ((a.take n).map (fun b => b % 256)).length ≤ i := by simp; omega
    rw [List.getElem?_eq_none h1, List.getElem?_eq_none h2]

/-- What the loop of `freefare_get_tag_uid` leaves in a fresh block of
`2 * n + 1` characters, for `n ≥ 1` bytes held in `a`. -/
theorem uid_loop_fresh (a : List Nat) (n : Nat) (hn : 1 ≤ n) (hlen : n ≤ a.length) :
    uid_loop a n 0 (malloc_block Char (2 * n + 1))
      = cbuffer (hex_encode ((a.take n).map (fun b => b % 256))) := by
  have hblock : malloc_block Char (2 * n + 1)
      = [] ++ Cell.uninit :: List.replicate (2 * n) Cell.uninit := by
    simp [malloc_block, List.replicate_succ]
  have h := uid_loop_spec a n 0 [] Cell.uninit (List.replicate (2 * n) Cell.uninit) rfl
    (by simp)
  rw [hblock, h, if_neg (by omega), bytes_read_eq a n hlen]
  rfl

theorem mod_bytes_lt (l : List Nat) : ∀ b ∈ l.map (fun b => b % 256), b < 256 := by
  intro b hb
  simp only [List.mem_map] at hb
  obtain ⟨x, _, rfl⟩ := hb
  exact Nat.mod_lt _ (by decide)

theorem uid_iso14443a_buffer (E : Env σ η) (tag : FreefareTag) (w : World σ η)
    (hnm : tag.info.nm.nmt = nfc_modulation_type.NMT_ISO14443A)
    (hn : 1 ≤ tag.info.nti.nai.szUidLen)
    (hlen : tag.info.nti.nai.szUidLen ≤ tag.info.nti.nai.abtUid.length)
    (hm : (E.malloc (2 * tag.info.nti.nai.szUidLen + 1) w.heap).1 = true) :
    (freefare_get_tag_uid E tag w).1 = some (cbuffer (hex_encode (uid_bytes tag))) := by
  simp only [freefare_get_tag_uid, hnm, call_malloc, hm]
  rw [uid_loop_fresh _ _ hn hlen]
  rfl

theorem uid_felica_buffer (E : Env σ η) (tag : FreefareTag) (w : World σ η)
    (hnm : tag.info.nm.nmt = nfc_modulation_type.NMT_FELICA)
    (harr : tag.info.nti.nfi.abtId.length = 8)
    (hm : (E.malloc 17 w.heap).1 = true) :
    (freefare_get_tag_uid E tag w).1 = some (cbuffer (hex_encode (idm_bytes tag))) := by
  simp only [freefare_get_tag_uid, hnm, call_malloc, hm]
  have h := uid_loop_fresh tag.info.nti.nfi.abtId 8 (by decide) (by omega)
  rw [List.take_of_length_le (by omega)] at h
  rw [show (17 : Nat) = 2 * 8 + 1 from rfl, h]
  rfl

/-- C6 (amended).  For an ISO14443A handle with UID length `n`, `1 ≤ n`, whose
`n` UID bytes lie in `abtUid`: if the allocation of the `2 * n + 1` characters
succeeds, `freefare_get_tag_uid` returns a buffer holding the hex encoding of
the UID followed by the terminator, and nothing else; the string read from it
has exactly `2 * n` characters, all in `0-9a-f`, those at `2 * i` and
`2 * i + 1` being the high and low hex digits of byte `i`.  If the allocation
fails, the result is `NULL`. -/
theorem freefare_get_tag_uid_iso14443a (E : Env σ η) (tag : FreefareTag) (w : World σ η)
    (hnm : tag.info.nm.nmt = nfc_modulation_type.NMT_ISO14443A)
    (hn : 1 ≤ tag.info.nti.nai.szUidLen)
    (hlen : tag.info.nti.nai.szUidLen ≤ tag.info.nti.nai.abtUid.length) :
    ((E.malloc (2 * tag.info.nti.nai.szUidLen + 1) w.heap).1 = true →
      (freefare_get_tag_uid E tag w).1 = some (cbuffer (hex_encode (uid_bytes tag)))
      ∧ (freefare_get_tag_uid E tag w).1.bind cstring = some (hex_encode (uid_bytes tag))
      ∧ (hex_encode (uid_bytes tag)).length = 2 * tag.info.nti.nai.szUidLen
      ∧ (∀ c ∈ hex_encode (uid_bytes tag), c ∈ hexchars)
      ∧ (∀ i b, (uid_bytes tag)[i]? = some b →
          (hex_encode (uid_bytes tag))[2 * i]? = some (hexdigit (b / 16))
            ∧ (hex_encode (uid_bytes tag))[2 * i + 1]? = some (hexdigit (b % 16))))
    ∧ ((E.malloc (2 * tag.info.nti.nai.szUidLen + 1) w.heap).1 = false →
      (freefare_get_tag_uid E tag w).1 = none) := by
  have hb : ∀ b ∈ uid_bytes tag, b < 256 := mod_bytes_lt _
  refine ⟨fun hm => ?_, fun hm => ?_⟩
  · have h1 := uid_iso14443a_buffer E tag w hnm hn hlen hm
    refine ⟨h1, ?_, ?_, ?_, ?_⟩
    · rw [h1]
      exact cstring_cbuffer _ (fun c hc => (hex_encode_mem _ hb c hc).2)
    · rw [hex_encode_length]
      simp [uid_bytes, hlen]
    · exact fun c hc => (hex_encode_mem _ hb c hc).1
    · exact fun i b h => hex_encode_getElem? _ i b h
  · simp only [freefare_get_tag_uid, hnm, call_malloc, hm]

/-- C6, worked example: the UID `DE AD BE EF` gives `deadbeef`. -/
theorem freefare_get_tag_uid_iso14443a_witness :
    (freefare_get_tag_uid (sample_env [] [] true none none)
        (tag_of freefare_tag_type.MIFARE_CLASSIC_1K card_classic) world0).1.bind cstring
      = some "deadbeef".toList :=
  (((freefare_get_tag_uid_iso14443a (sample_env [] [] true none none)
      (tag_of freefare_tag_type.MIFARE_CLASSIC_1K card_classic) world0
      rfl (by decide) (by decide)).1 rfl).2.1).trans (by decide)

/-- C6 as stated fails.  (1) With the allocation refused, the result for the
handle with UID `DE AD BE EF` is `NULL`.  (2) With UID length 0 the block of one
character is returned as `malloc` left it: no terminator is stored at index 0,
and no C string can be read from it. -/
theorem freefare_get_tag_uid_iso14443a_counterexample :
    (freefare_get_tag_uid (sample_env [] [] true none (some 9))
        (tag_of freefare_tag_type.MIFARE_CLASSIC_1K card_classic) world0).1 = none
    ∧ (freefare_get_tag_uid (sample_env [] [] true none none)
        (tag_of freefare_tag_type.MIFARE_CLASSIC_1K (iso14443a_target 8 [])) world0).1
        = some [Cell.uninit]
    ∧ (freefare_get_tag_uid (sample_env [] [] true none none)
        (tag_of freefare_tag_type.MIFARE_CLASSIC_1K (iso14443a_target 8 [])) world0).1
        ≠ some (cbuffer [])
    ∧ (freefare_get_tag_uid (sample_env [] [] true none none)
        (tag_of freefare_tag_type.MIFARE_CLASSIC_1K (iso14443a_target 8 [])) world0).1.bind
        cstring = none := by
  decide

/-- C7 (amended).  For a FeliCA handle: if the allocation of the 17 characters
succeeds, `freefare_get_tag_uid` returns a buffer holding the hex encoding of
the 8 IDm bytes, in order, followed by the terminator; the string read from it
has exactly 16 characters, all in `0-9a-f`.  If the allocation fails the result
is `NULL`.  Either way the result depends on no field of the handle other than
the IDm. -/
theorem freefare_get_tag_uid_felica (E : Env σ η) (tag : FreefareTag) (w : World σ η)
    (hnm : tag.info.nm.nmt = nfc_modulation_type.NMT_FELICA)
    (harr : tag.info.nti.nfi.abtId.length = 8) :
    ((E.malloc 17 w.heap).1 = true →
      (freefare_get_tag_uid E tag w).1 = some (cbuffer (hex_encode (idm_bytes tag)))
      ∧ (freefare_get_tag_uid E tag w).1.bind cstring = some (hex_encode (idm_bytes tag))
      ∧ (hex_encode (idm_bytes tag)).length = 16
      ∧ (∀ c ∈ hex_encode (idm_bytes tag), c ∈ hexchars)
      ∧ (∀ i b, (idm_bytes tag)[i]? = some b →
          (hex_encode (idm_bytes tag))[2 * i]? = some (hexdigit (b / 16))
            ∧ (hex_encode (idm_bytes tag))[2 * i + 1]? = some (hexdigit (b % 16))))
    ∧ ((E.malloc 17 w.heap).1 = false → (freefare_get_tag_uid E tag w).1 = none)
    ∧ (∀ tag2 : FreefareTag, tag2.info.nm.nmt = nfc_modulation_type.NMT_FELICA →
        tag2.info.nti.nfi.abtId = tag.info.nti.nfi.abtId →
        freefare_get_tag_uid E tag2 w = freefare_get_tag_uid E tag w) := by
  have hb : ∀ b ∈ idm_bytes tag, b < 256 := mod_bytes_lt _
  refine ⟨fun hm => ?_, fun hm => ?_, fun tag2 h2 hid => ?_⟩
  · have h1 := uid_felica_buffer E tag w hnm harr hm
    refine ⟨h1, ?_, ?_, ?_, ?_⟩
    · rw [h1]
      exact cstring_cbuffer _ (fun c hc => (hex_encode_mem _ hb c hc).2)
    · rw [hex_encode_length]
      simp [idm_bytes, harr]
    · exact fun c hc => (hex_encode_mem _ hb c hc).1
    · exact fun i b h => hex_encode_getElem? _ i b h
  · simp only [freefare_get_tag_uid, hnm, call_malloc, hm]
  · simp only [freefare_get_tag_uid, hnm, h2, hid]

/-- C7, worked example: the IDm `01 23 45 67 89 AB CD EF` gives
`0123456789abcdef`. -/
theorem freefare_get_tag_uid_felica_witness :
    (freefare_get_tag_uid (sample_env [] [] true none none)
        (tag_of freefare_tag_type.FELICA card_felica) world0).1.bind cstring
      = some "0123456789abcdef".toList :=
  (((freefare_get_tag_uid_felica (sample_env [] [] true none none)
      (tag_of freefare_tag_type.FELICA card_felica) world0 rfl rfl).1 rfl).2.1).trans
    (by decide)

/-- C7 as stated fails: with the allocation of the 17 characters refused, the
result for the FeliCA handle with IDm `01 23 45 67 89 AB CD EF` is `NULL`, not
the 16 characters. -/
theorem freefare_get_tag_uid_felica_counterexample :
    (freefare_get_tag_uid (sample_env [] [] true none (some 17))
        (tag_of freefare_tag_type.FELICA card_felica) world0).1 = none
    ∧ (freefare_get_tag_uid (sample_env [] [] true none (some 17))
        (tag_of freefare_tag_type.FELICA card_felica) world0).1
        ≠ some (cbuffer "0123456789abcdef".toList) := by
  decide

open nfc_modulation_type in
/-- C8 (amended).  For a handle whose modulation class is one of the six the
`switch` names besides FeliCA and ISO14443A (DEP, ISO14443B2CT, ISO14443B2SR,
ISO14443B, ISO14443BI, Jewel): if the duplication of the string succeeds,
`freefare_get_tag_uid` returns a buffer holding `UNKNOWN` and its terminator;
if it fails, the result is `NULL`. -/
theorem freefare_get_tag_uid_unknown (E : Env σ η) (tag : FreefareTag) (w : World σ η)
    (hnm : tag.info.nm.nmt ∈ [NMT_DEP, NMT_ISO14443B2CT, NMT_ISO14443B2SR, NMT_ISO14443B,
      NMT_ISO14443BI, NMT_JEWEL]) :
    ((E.malloc 8 w.heap).1 = true →
      (freefare_get_tag_uid E tag w).1 = some (cbuffer "UNKNOWN".toList)
      ∧ (freefare_get_tag_uid E tag w).1.bind cstring = some "UNKNOWN".toList)
    ∧ ((E.malloc 8 w.heap).1 = false → (freefare_get_tag_uid E tag w).1 = none) := by
  have hdup : freefare_get_tag_uid E tag w = strdup E "UNKNOWN" w := by
    simp only [List.mem_cons, List.mem_singleton, List.not_mem_nil, or_false] at hnm
    rcases hnm with h | h | h | h | h | h <;> simp only [freefare_get_tag_uid, h]
  have hlen : "UNKNOWN".length + 1 = 8 := by decide
  rw [hdup]
  refine ⟨fun hm => ?_, fun hm => ?_⟩
  · have h1 : (strdup E "UNKNOWN" w).1 = some (cbuffer "UNKNOWN".toList) := by
      simp only [strdup, call_malloc, hlen, hm]
      decide
    rw [h1]
    exact ⟨rfl, by decide⟩
  · simp only [strdup, call_malloc, hlen, hm]

/-- C8, worked example: a handle of class DEP. -/
theorem freefare_get_tag_uid_unknown_witness :
    (freefare_get_tag_uid (sample_env [] [] true none none)
        (tag_of (freefare_tag_type.other 7) (target_of_class nfc_modulation_type.NMT_DEP))
        world0).1.bind cstring = some "UNKNOWN".toList :=
  ((freefare_get_tag_uid_unknown (sample_env [] [] true none none)
      (tag_of (freefare_tag_type.other 7) (target_of_class nfc_modulation_type.NMT_DEP))
      world0 (by decide)).1 rfl).2

/-- C8 as stated fails.  (1) For a modulation class the `switch` does not name,
the result is `NULL`, the allocator granting every request.  (2) For class DEP
with the duplication refused, the result is `NULL`. -/
theorem freefare_get_tag_uid_unknown_counterexample :
    (freefare_get_tag_uid (sample_env [] [] true none none)
        (tag_of freefare_tag_type.MIFARE_ULTRALIGHT
          (target_of_class (nfc_modulation_type.other 9))) world0).1 = none
    ∧ (freefare_get_tag_uid (sample_env [] [] true none (some 8))
        (tag_of freefare_tag_type.MIFARE_ULTRALIGHT
          (target_of_class nfc_modulation_type.NMT_DEP)) world0).1 = none := by
  decide

/-! ## Friendly name and error message -/

open freefare_tag_type in
/-- C9. `freefare_get_tag_friendly_name` is total over the family tag: for
every tag value that is none of the six supported families the result is
`UNKNOWN`; for every tag value the result is one of seven literals, never the
empty string; and it depends on the family tag only. -/
theorem freefare_get_tag_friendly_name_total :
    (∀ tag : FreefareTag, tag.type ≠ FELICA → tag.type ≠ MIFARE_CLASSIC_1K →
        tag.type ≠ MIFARE_CLASSIC_4K → tag.type ≠ MIFARE_DESFIRE →
        tag.type ≠ MIFARE_ULTRALIGHT_C → tag.type ≠ MIFARE_ULTRALIGHT →
        freefare_get_tag_friendly_name tag = "UNKNOWN")
    ∧ (∀ tag : FreefareTag, freefare_get_tag_friendly_name tag ≠ "")
    ∧ (∀ tag : FreefareTag, freefare_get_tag_friendly_name tag ∈
        ["FeliCA", "Mifare Classic 1k", "Mifare Classic 4k", "Mifare DESFire",
         "Mifare UltraLightC", "Mifare UltraLight", "UNKNOWN"])
    ∧ (∀ tag1 tag2 : FreefareTag, tag1.type = tag2.type →
        freefare_get_tag_friendly_name tag1 = freefare_get_tag_friendly_name tag2) := by
  refine ⟨?_, ?_, ?_, ?_⟩
  · intro tag h1 h2 h3 h4 h5 h6
    unfold freefare_get_tag_friendly_name
    cases h : tag.type <;> simp_all
  · intro tag
    unfold freefare_get_tag_friendly_name
    cases tag.type <;> simp only [] <;> decide
  · intro tag
    unfold freefare_get_tag_friendly_name
    cases tag.type <;> simp
  · intro tag1 tag2 h
    unfold freefare_get_tag_friendly_name
    rw [h]

/-- C9, worked example: a handle whose family tag is not a supported one. -/
theorem freefare_get_tag_friendly_name_total_witness :
    freefare_get_tag_friendly_name (tag_of (freefare_tag_type.other 42) card_classic)
      = "UNKNOWN" :=
  freefare_get_tag_friendly_name_total.1 (tag_of (freefare_tag_type.other 42) card_classic)
    (by decide) (by decide) (by decide) (by decide) (by decide) (by decide)

/-- C10. `freefare_strerror` follows the three tiers.  (1) If the last error of
the device is negative, the result is the error text of the device, whatever
the family and the recorded DESFire codes.  (2) Otherwise, for a DESFire handle
with a non-zero reader-side or card-side code, it is the DESFire lookup of that
code (of the reader-side one if it is non-zero, else of the card-side one).
(3) Otherwise, for a DESFire handle with both codes zero and (4) for a handle of
any other family, it is `Unknown error`. -/
theorem freefare_strerror_three_tiers (E : Env σ η) (tag : FreefareTag) (w : World σ η) :
    (E.nfc_device_get_last_error w.dev < 0 →
        freefare_strerror E tag w = E.nfc_strerror w.dev)
    ∧ (0 ≤ E.nfc_device_get_last_error w.dev →
        tag.type = freefare_tag_type.MIFARE_DESFIRE →
        (tag.last_pcd_error ≠ 0 ∨ tag.last_picc_error ≠ 0) →
        freefare_strerror E tag w
          = E.mifare_desfire_error_lookup
              (if tag.last_pcd_error ≠ 0 then tag.last_pcd_error else tag.last_picc_error))
    ∧ (0 ≤ E.nfc_device_get_last_error w.dev →
        tag.type = freefare_tag_type.MIFARE_DESFIRE →
        tag.last_pcd_error = 0 → tag.last_picc_error = 0 →
        freefare_strerror E tag w = "Unknown error")
    ∧ (0 ≤ E.nfc_device_get_last_error w.dev →
        tag.type ≠ freefare_tag_type.MIFARE_DESFIRE →
        freefare_strerror E tag w = "Unknown error") := by
  refine ⟨?_, ?_, ?_, ?_⟩
  · intro h
    simp only [freefare_strerror, if_pos h]
  · intro h ht hc
    simp only [freefare_strerror, if_neg (not_lt.mpr h), ht, if_true]
    by_cases hp : tag.last_pcd_error ≠ 0
    · simp only [if_pos hp]
    · have hq : tag.last_picc_error ≠ 0 := hc.resolve_left hp
      simp only [if_neg hp, if_pos hq]
  · intro h ht hp hq
    simp [freefare_strerror, not_lt.mpr h, ht, hp, hq]
  · intro h ht
    simp [freefare_strerror, not_lt.mpr h, ht]

/-- C10, worked example: no device error, a DESFire handle with reader-side
code 0 and card-side code 0xAE. -/
theorem freefare_strerror_three_tiers_witness :
    freefare_strerror (sample_env [] [] true none none)
        { tag_of freefare_tag_type.MIFARE_DESFIRE card_classic with last_picc_error := 174 }
        world0
      = "AUTHENTICATION_ERROR" :=
  ((freefare_strerror_three_tiers (sample_env [] [] true none none)
      { tag_of freefare_tag_type.MIFARE_DESFIRE card_classic with last_picc_error := 174 }
      world0).2.1 (by decide) rfl (by decide)).trans (by decide)

end Freefare

namespace Freefare

variable {σ η : Type}

/-! ## The buffer-writing error message -/

/-- C11 (amended).  `freefare_strerror_r` returns -1 when `snprintf` reports an
error and 0 in every other case, whether or not the message fits: for `len > 0`
the buffer then holds the first `len - 1` characters of the message and the
terminator (the whole message when it is shorter than `len`), and for
`len = 0` it is left as it was. -/
theorem freefare_strerror_r_result (E : Env σ η) (tag : FreefareTag)
    (buffer : List (Cell Char)) (len : Nat) (w : World σ η) :
    (freefare_strerror_r E tag buffer len w true).1 = -1
    ∧ (freefare_strerror_r E tag buffer len w false).1 = 0
    ∧ (len ≠ 0 → (freefare_strerror_r E tag buffer len w false).2
        = poke buffer 0 ((freefare_strerror E tag w).toList.take (len - 1) ++ [NUL]))
    ∧ ((freefare_strerror E tag w).length < len →
        (freefare_strerror_r E tag buffer len w false).2
          = poke buffer 0 ((freefare_strerror E tag w).toList ++ [NUL]))
    ∧ (len = 0 → (freefare_strerror_r E tag buffer len w false).2 = buffer) := by
  have hnn : ¬ ((((freefare_strerror E tag w).length : Nat) : Int) < 0) :=
    not_lt.mpr (Int.ofNat_nonneg _)
  refine ⟨?_, ?_, ?_, ?_, ?_⟩
  · simp [freefare_strerror_r, snprintf_s]
  · simp [freefare_strerror_r, snprintf_s, hnn]
  · intro hlen
    simp [freefare_strerror_r, snprintf_s, hnn, hlen]
  · intro hlt
    have hlen : len ≠ 0 := by omega
    have hl : (freefare_strerror E tag w).data.length = (freefare_strerror E tag w).length :=
      rfl
    have htake : (freefare_strerror E tag w).data.take (len - 1)
        = (freefare_strerror E tag w).data :=
      List.take_of_length_le (by rw [hl]; omega)
    simp [freefare_strerror_r, snprintf_s, hnn, hlen, htake]
  · intro hlen
    simp [freefare_strerror_r, snprintf_s, hnn, hlen]

/-- C11, worked example: a buffer of 14 characters takes the whole of
`Unknown error`. -/
theorem freefare_strerror_r_result_witness :
    freefare_strerror_r (sample_env [] [] true none none) (classic_tag [1, 2, 3, 4])
        (malloc_block Char 14) 14 world0 false
      = (0, cbuffer "Unknown error".toList) :=
  Prod.ext ((freefare_strerror_r_result (sample_env [] [] true none none)
      (classic_tag [1, 2, 3, 4]) (malloc_block Char 14) 14 world0).2.1)
    (((freefare_strerror_r_result (sample_env [] [] true none none)
      (classic_tag [1, 2, 3, 4]) (malloc_block Char 14) 14 world0).2.2.2.1 (by decide)).trans
      (by decide))

/-- C11 as stated fails: the message `Unknown error` has 13 characters; with a
buffer of 4 it is cut to `Unk`, with a buffer of 14 it is written whole, and the
value returned is 0 in both cases. -/
theorem freefare_strerror_r_result_counterexample :
    (freefare_strerror (sample_env [] [] true none none) (classic_tag [1, 2, 3, 4])
        world0).length = 13
    ∧ freefare_strerror_r (sample_env [] [] true none none) (classic_tag [1, 2, 3, 4])
        (malloc_block Char 4) 4 world0 false = (0, cbuffer "Unk".toList)
    ∧ (freefare_strerror_r (sample_env [] [] true none none) (classic_tag [1, 2, 3, 4])
        (malloc_block Char 14) 14 world0 false).1 = 0 := by
  decide

/-! ## The release of a collection -/

theorem free_loop_collection (extra : TagArray) :
    ∀ hs : List FreefareTag,
      free_loop (collection hs ++ extra) = some (hs.map FreeCall.free_tag)
  | [] => rfl
  | h :: hs => by
    have e : collection (h :: hs) ++ extra = Cell.val (some h) :: (collection hs ++ extra) := rfl
    rw [e, free_loop, free_loop_collection extra hs]
    rfl

theorem freefare_free_tags_collection (hs : List FreefareTag) (extra : TagArray) :
    freefare_free_tags (some ⟨collection hs ++ extra, true⟩)
      = some (hs.map FreeCall.free_tag ++ [FreeCall.free (collection hs ++ extra)],
              some ⟨collection hs ++ extra, false⟩) := by
  simp only [freefare_free_tags, free_loop_collection]
  rfl

theorem freefare_free_tags_freed (cells : TagArray) :
    freefare_free_tags (some ⟨cells, false⟩) = none := rfl

/-- C12. `freefare_free_tags` on a collection holding `h1 .. hn` (whatever
follows the terminator in the block) invokes the destructor of each handle
once, in order, and no other, and then frees the block; on `NULL` it makes no
call; on the collection that is the terminator alone it frees the block and
invokes no destructor.  (On a block already freed the call has no defined
outcome.)  `freefare_free_tag` invokes the destructor of a non-null handle and
does nothing on `NULL`. -/
theorem freefare_free_tags_calls :
    freefare_free_tags none = some ([], none)
    ∧ (∀ (hs : List FreefareTag) (extra : TagArray) (live : Bool),
        freefare_free_tags (some ⟨collection hs ++ extra, live⟩)
          = if live = true then
              some (hs.map FreeCall.free_tag ++ [FreeCall.free (collection hs ++ extra)],
                    some ⟨collection hs ++ extra, false⟩)
            else none)
    ∧ (∀ h : FreefareTag,
        (freefare_free_tags (some ⟨collection [], true⟩)).map
            (fun r => r.1.count (FreeCall.free_tag h)) = some 0)
    ∧ (∀ (live : Bool) (h : FreefareTag) (r : List FreeCall × Option TagBlock),
        freefare_free_tags (some ⟨collection [], live⟩) = some r →
        r.1.count (FreeCall.free_tag h) = 0)
    ∧ (∀ tag : FreefareTag, freefare_free_tag (some tag) = [FreeCall.free_tag tag])
    ∧ freefare_free_tag none = [] := by
  have hempty : freefare_free_tags (some ⟨collection [], true⟩)
      = some ([FreeCall.free (collection [])], some ⟨collection [], false⟩) := by
    have e := freefare_free_tags_collection [] []
    simpa using e
  refine ⟨rfl, ?_, ?_, ?_, fun _ => rfl, rfl⟩
  · intro hs extra live
    cases live with
    | true => simpa using freefare_free_tags_collection hs extra
    | false => simpa using freefare_free_tags_freed (collection hs ++ extra)
  · intro h
    rw [hempty]
    simp
  · intro live h r hr
    cases live with
    | true =>
      rw [hempty] at hr
      cases hr
      simp
    | false =>
      rw [freefare_free_tags_freed] at hr
      cases hr

/-- C12, worked example: the release of a collection of two handles. -/
theorem freefare_free_tags_calls_witness :
    freefare_free_tags
        (some ⟨collection [classic_tag [1, 2, 3, 4], tag_of freefare_tag_type.FELICA card_felica]
          ++ [], true⟩)
      = some ([FreeCall.free_tag (classic_tag [1, 2, 3, 4]),
               FreeCall.free_tag (tag_of freefare_tag_type.FELICA card_felica)]
              ++ [FreeCall.free (collection [classic_tag [1, 2, 3, 4],
                    tag_of freefare_tag_type.FELICA card_felica] ++ [])],
            some ⟨collection [classic_tag [1, 2, 3, 4],
              tag_of freefare_tag_type.FELICA card_felica] ++ [], false⟩) :=
  freefare_free_tags_calls.2.1
    [classic_tag [1, 2, 3, 4], tag_of freefare_tag_type.FELICA card_felica] [] true

/-- C13 (amended).  `freefare_free_tags` gives no protection against a second
call.  The first call on a collection holding `h1 .. hn` invokes each
destructor once and frees the block, and it stores nothing: the caller's
pointer is not `NULL` afterwards, it refers to the block, which is no longer
allocated and whose cells were not cleared.  A second call on that pointer is a
use of freed storage, with no defined outcome: it is not the call on an empty
or absent collection, which is defined and invokes no destructor. -/
theorem freefare_free_tags_twice (hs : List FreefareTag) (extra : TagArray) :
    (∃ b1 : TagBlock,
      freefare_free_tags (some ⟨collection hs ++ extra, true⟩)
        = some (hs.map FreeCall.free_tag ++ [FreeCall.free (collection hs ++ extra)], some b1)
      ∧ b1.live = false
      ∧ b1.cells = collection hs ++ extra
      ∧ freefare_free_tags (some b1) = none)
    ∧ (freefare_free_tags (some ⟨collection hs ++ extra, true⟩)).bind
        (fun r1 => freefare_free_tags r1.2) = none
    ∧ freefare_free_tags none = some ([], none)
    ∧ freefare_free_tags (some ⟨collection [], true⟩)
        = some ([FreeCall.free (collection [])], some ⟨collection [], false⟩) := by
  have h1 := freefare_free_tags_collection hs extra
  refine ⟨⟨⟨collection hs ++ extra, false⟩, h1, rfl, rfl, rfl⟩, ?_, rfl, ?_⟩
  · rw [h1]
    rfl
  · have e := freefare_free_tags_collection [] []
    simpa using e

/-- C13 as stated fails: after the first call on the collection holding one
handle, the caller's pointer refers to the freed block, which still holds that
handle (it is neither `NULL` nor the empty collection), and the second call on
it has no defined outcome: the two calls are not a run in which the destructor
is invoked at most once. -/
theorem freefare_free_tags_twice_counterexample :
    (freefare_free_tags (some ⟨collection [classic_tag [1, 2, 3, 4]], true⟩)).map
        (fun r => r.2)
      = some (some ⟨collection [classic_tag [1, 2, 3, 4]], false⟩)
    ∧ (freefare_free_tags (some ⟨collection [classic_tag [1, 2, 3, 4]], true⟩)).bind
        (fun r1 => (freefare_free_tags r1.2).map
          (fun r2 => decide
            ((r1.1 ++ r2.1).count (FreeCall.free_tag (classic_tag [1, 2, 3, 4])) ≤ 1)))
      ≠ some true
    ∧ (freefare_free_tags (some ⟨collection [classic_tag [1, 2, 3, 4]], true⟩)).bind
        (fun r1 => freefare_free_tags r1.2) = none := by
  decide

/-! ## The registry -/

open freefare_tag_type nfc_modulation_type in
/-- C16. The family tags of `supported_tags`, read top to bottom, form
contiguous runs in the order FeliCA, Classic 1k, Classic 4k, DESFire,
Ultralight-C, Ultralight, which is the order in which `freefare_tag_new` tries
the families; every Ultralight-C entry comes before every Ultralight entry; the
FeliCA entry is the only one of modulation class FeliCA; and the Ultralight-C
entry is the only one with a probe. -/
theorem supported_tags_order :
    supported_tags.map (fun e => e.type)
      = [FELICA] ++ List.replicate 4 MIFARE_CLASSIC_1K ++ List.replicate 2 MIFARE_CLASSIC_4K
          ++ List.replicate 3 MIFARE_DESFIRE ++ [MIFARE_ULTRALIGHT_C] ++ [MIFARE_ULTRALIGHT]
    ∧ runs (supported_tags.map (fun e => e.type)) = priority
    ∧ (∀ (E : Env σ η) (target : nfc_target) (w : World σ η),
        freefare_tag_new E target w
          = first_match E target (runs (supported_tags.map (fun e => e.type))) w)
    ∧ (∀ i, i < supported_tags.length → ∀ j, j < supported_tags.length →
        (supported_tags[i]?).map (fun e => e.type) = some MIFARE_ULTRALIGHT_C →
        (supported_tags[j]?).map (fun e => e.type) = some MIFARE_ULTRALIGHT → i < j)
    ∧ (supported_tags.filter (fun e => decide (e.modulation_type = NMT_FELICA))).map
        (fun e => e.type) = [FELICA]
    ∧ (supported_tags.filter (fun e => decide (e.type = FELICA))).map
        (fun e => e.modulation_type) = [NMT_FELICA]
    ∧ (supported_tags.filter (fun e => e.check_tag_on_reader.isSome)).map
        (fun e => e.type) = [MIFARE_ULTRALIGHT_C]
    ∧ (supported_tags.filter (fun e => decide (e.type = MIFARE_ULTRALIGHT_C))).map
        (fun e => e.check_tag_on_reader)
        = [some reader_check.is_mifare_ultralightc_on_reader] := by
  have hruns : runs (supported_tags.map (fun e => e.type)) = priority := by decide
  refine ⟨by decide, hruns, ?_, by decide, by decide, by decide, by decide, by decide⟩
  intro E target w
  rw [hruns]
  exact freefare_tag_new_unfold E target w

/-- C16, worked example: the Ultralight-C entry is entry 10, the Ultralight
entry is entry 11. -/
theorem supported_tags_order_witness :
    (supported_tags[10]?).map (fun e => e.type) = some freefare_tag_type.MIFARE_ULTRALIGHT_C
    ∧ (supported_tags[11]?).map (fun e => e.type) = some freefare_tag_type.MIFARE_ULTRALIGHT
    ∧ 10 < 11 :=
  ⟨by decide, by decide,
   (@supported_tags_order Nat Nat).2.2.2.1 10 (by decide) 11 (by decide) (by decide)
     (by decide)⟩

/-- C17. `freefare_get_tag_friendly_name` agrees with the registry: when the
family tag of the handle occurs in `supported_tags`, the name returned is the
display name of the first entry with that tag (and there is such an entry);
and when the name returned is not `UNKNOWN`, the family tag occurs in
`supported_tags`. -/
theorem freefare_get_tag_friendly_name_registry (tag : FreefareTag) :
    (∀ e, supported_tags.find? (fun e => decide (e.type = tag.type)) = some e →
        freefare_get_tag_friendly_name tag = e.friendly_name)
    ∧ (tag.type ∈ supported_tags.map (fun e => e.type) →
        ∃ e, supported_tags.find? (fun e => decide (e.type = tag.type)) = some e
          ∧ freefare_get_tag_friendly_name tag = e.friendly_name)
    ∧ (freefare_get_tag_friendly_name tag ≠ "UNKNOWN" →
        tag.type ∈ supported_tags.map (fun e => e.type)) := by
  unfold freefare_get_tag_friendly_name
  cases h : tag.type <;> simp [supported_tags]

/-- C17, worked example: a handle of family Classic 1k, which has four entries
in the registry, is named after the first of them. -/
theorem freefare_get_tag_friendly_name_registry_witness :
    freefare_get_tag_friendly_name (classic_tag [1, 2, 3, 4]) = "Mifare Classic 1k" :=
  (freefare_get_tag_friendly_name_registry (classic_tag [1, 2, 3, 4])).1
    ⟨freefare_tag_type.MIFARE_CLASSIC_1K, "Mifare Classic 1k",
      nfc_modulation_type.NMT_ISO14443A, 0x08, 0, 0, [0x00], none⟩ (by decide)

/-- C18. In `freefare_strerror`, for a DESFire handle on a device whose last
error is not negative, the reader-side (PCD) code comes first: if it is
non-zero the result is its lookup, whatever the card-side (PICC) code; the PICC
code is looked up when the PCD code is zero and the PICC code is not; and with
both zero nothing is looked up. -/
theorem freefare_strerror_pcd_first (E : Env σ η) (tag : FreefareTag) (w : World σ η)
    (hdev : 0 ≤ E.nfc_device_get_last_error w.dev)
    (htype : tag.type = freefare_tag_type.MIFARE_DESFIRE) :
    (tag.last_pcd_error ≠ 0 →
        freefare_strerror E tag w = E.mifare_desfire_error_lookup tag.last_pcd_error)
    ∧ (tag.last_pcd_error = 0 → tag.last_picc_error ≠ 0 →
        freefare_strerror E tag w = E.mifare_desfire_error_lookup tag.last_picc_error)
    ∧ (tag.last_pcd_error = 0 → tag.last_picc_error = 0 →
        freefare_strerror E tag w = "Unknown error") := by
  have hd : ¬ E.nfc_device_get_last_error w.dev < 0 := not_lt.mpr hdev
  refine ⟨?_, ?_, ?_⟩
  · intro hp
    simp only [freefare_strerror, if_neg hd, htype, if_true, if_pos hp]
  · intro hp hq
    simp [freefare_strerror, hd, htype, hp, hq]
  · intro hp hq
    simp [freefare_strerror, hd, htype, hp, hq]

/-- C18, worked example: with PCD code 0x9D and PICC code 0xAE both recorded,
the message is that of the PCD code. -/
theorem freefare_strerror_pcd_first_witness :
    freefare_strerror (sample_env [] [] true none none)
        { tag_of freefare_tag_type.MIFARE_DESFIRE card_classic with
          last_pcd_error := 157, last_picc_error := 174 } world0
      = "PERMISSION_ERROR" :=
  ((freefare_strerror_pcd_first (sample_env [] [] true none none)
      { tag_of freefare_tag_type.MIFARE_DESFIRE card_classic with
        last_pcd_error := 157, last_picc_error := 174 } world0 (by decide) rfl).1
      (by decide)).trans (by decide)

/-! ## The order of the device calls -/

theorem first_match_calls (E : Env σ η) (t : nfc_target) :
    ∀ (fs : List freefare_tag_type) (w : World σ η),
      ∃ L, (first_match E t fs w).2.log = w.log ++ L ∧ ∀ c ∈ L, is_dispatch c = true
  | [], w => ⟨[], by simp [first_match], by simp⟩
  | f :: fs, w => by
    by_cases hb : (call_taste E f t w).1 = true
    · refine ⟨[Call.taste f t, Call.tag_new f t], ?_, ?_⟩
      · simp [first_match, hb, call_tag_new_log, call_taste_log]
      · intro c hc
        simp only [List.mem_cons, List.mem_singleton, List.not_mem_nil, or_false] at hc
        rcases hc with rfl | rfl <;> rfl
    · obtain ⟨L, h1, h2⟩ := first_match_calls E t fs (call_taste E f t w).2
      refine ⟨Call.taste f t :: L, ?_, ?_⟩
      · simp only [first_match, hb, Bool.false_eq_true, if_false]
        rw [h1, call_taste_log]
        simp
      · intro c hc
        simp only [List.mem_cons] at hc
        rcases hc with rfl | hc
        · rfl
        · exact h2 c hc

theorem freefare_tag_new_calls (E : Env σ η) (t : nfc_target) (w : World σ η) :
    ∃ L, (freefare_tag_new E t w).2.log = w.log ++ L ∧ ∀ c ∈ L, is_dispatch c = true := by
  rw [freefare_tag_new_unfold]
  exact first_match_calls E t priority w

theorem append_dispatch {L1 L2 : List Call} (h1 : ∀ c ∈ L1, is_dispatch c = true)
    (h2 : ∀ c ∈ L2, is_dispatch c = true) : ∀ c ∈ L1 ++ L2, is_dispatch c = true := by
  intro c hc
  rcases List.mem_append.mp hc with h | h
  · exact h1 c h
  · exact h2 c h

theorem identify_all_calls (E : Env σ η) :
    ∀ (cs : List nfc_target) (w : World σ η),
      ∃ L, (identify_all E cs w).2.log = w.log ++ L ∧ ∀ c ∈ L, is_dispatch c = true
  | [], w => ⟨[], by simp [identify_all], by simp⟩
  | t :: ts, w => by
    obtain ⟨L1, h1, d1⟩ := freefare_tag_new_calls E t w
    obtain ⟨L2, h2, d2⟩ := identify_all_calls E ts (freefare_tag_new E t w).2
    refine ⟨L1 ++ L2, ?_, append_dispatch d1 d2⟩
    cases hh : (freefare_tag_new E t w).1 with
    | none =>
      rw [identify_all_cons_none E t ts w hh, h2, h1, List.append_assoc]
    | some h =>
      rw [identify_all_cons_some E t ts w h hh]
      simp only []
      rw [h2, h1, List.append_assoc]

theorem tags_loop_calls (E : Env σ η) (cands : Nat → nfc_target) :
    ∀ (n c : Nat) (tags : TagArray) (tc : Nat) (w : World σ η),
      ∃ L, (tags_loop E cands n c tags tc w).2.log = w.log ++ L
        ∧ ∀ x ∈ L, is_dispatch x = true
  | 0, c, tags, tc, w => ⟨[], by simp [tags_loop], by simp⟩
  | n + 1, c, tags, tc, w => by
    obtain ⟨L1, h1, d1⟩ := freefare_tag_new_calls E (cands c) w
    cases hh : (freefare_tag_new E (cands c) w).1 with
    | none =>
      obtain ⟨L2, h2, d2⟩ := tags_loop_calls E cands n (c + 1) tags tc
        (freefare_tag_new E (cands c) w).2
      refine ⟨L1 ++ L2, ?_, append_dispatch d1 d2⟩
      rw [tags_loop_succ_none E cands n c tags tc w hh, h2, h1, List.append_assoc]
    | some t =>
      cases ha : (E.realloc (tc + 2) (freefare_tag_new E (cands c) w).2.heap).1 with
      | false =>
        refine ⟨L1, ?_, d1⟩
        rw [tags_loop_succ_fail E cands n c tags tc w t hh ha]
        exact h1
      | true =>
        obtain ⟨L2, h2, d2⟩ := tags_loop_calls E cands n (c + 1)
          (((realloc_block tags (tc + 2)).set tc (Cell.val (some t))).set (tc + 1)
            (Cell.val none))
          (tc + 1) (call_realloc E (tc + 2) (freefare_tag_new E (cands c) w).2).2
        refine ⟨L1 ++ L2, ?_, append_dispatch d1 d2⟩
        rw [tags_loop_succ_grow E cands n c tags tc w t hh ha, h2]
        have hl : (call_realloc E (tc + 2) (freefare_tag_new E (cands c) w).2).2.log
            = (freefare_tag_new E (cands c) w).2.log := rfl
        rw [hl, h1, List.append_assoc]

theorem felica_round_world (E : Env σ η) (tags : TagArray) (tc : Nat) (w : World σ η) :
    (felica_round E tags tc w).2
      = if (call_list_passive_targets E
              ⟨nfc_modulation_type.NMT_FELICA, nfc_baud_rate.NBR_424⟩ MAX_CANDIDATES w).1.1 < 0
        then (call_list_passive_targets E
              ⟨nfc_modulation_type.NMT_FELICA, nfc_baud_rate.NBR_424⟩ MAX_CANDIDATES w).2
        else (tags_loop E
              (call_list_passive_targets E
                ⟨nfc_modulation_type.NMT_FELICA, nfc_baud_rate.NBR_424⟩ MAX_CANDIDATES w).1.2
              (call_list_passive_targets E
                ⟨nfc_modulation_type.NMT_FELICA, nfc_baud_rate.NBR_424⟩ MAX_CANDIDATES w).1.1.toNat
              0 tags tc
              (call_list_passive_targets E
                ⟨nfc_modulation_type.NMT_FELICA, nfc_baud_rate.NBR_424⟩ MAX_CANDIDATES w).2).2 := by
  rw [felica_round_eq]
  split_ifs with hp
  · rfl
  · rcases hl : tags_loop E
        (call_list_passive_targets E
          ⟨nfc_modulation_type.NMT_FELICA, nfc_baud_rate.NBR_424⟩ MAX_CANDIDATES w).1.2
        (call_list_passive_targets E
          ⟨nfc_modulation_type.NMT_FELICA, nfc_baud_rate.NBR_424⟩ MAX_CANDIDATES w).1.1.toNat
        0 tags tc
        (call_list_passive_targets E
          ⟨nfc_modulation_type.NMT_FELICA, nfc_baud_rate.NBR_424⟩ MAX_CANDIDATES w).2
      with ⟨ex, w2⟩
    cases ex <;> rfl

theorem felica_round_calls (E : Env σ η) (tags : TagArray) (tc : Nat) (w : World σ η) :
    ∃ L, (felica_round E tags tc w).2.log = w.log ++ felica_poll_call :: L
      ∧ ∀ x ∈ L, is_dispatch x = true := by
  have hpoll : (call_list_passive_targets E
      ⟨nfc_modulation_type.NMT_FELICA, nfc_baud_rate.NBR_424⟩ MAX_CANDIDATES w).2.log
      = w.log ++ [felica_poll_call] := rfl
  rw [felica_round_world]
  split_ifs with hp
  · exact ⟨[], hpoll, by simp⟩
  · obtain ⟨L, h1, d1⟩ := tags_loop_calls E
      (call_list_passive_targets E
        ⟨nfc_modulation_type.NMT_FELICA, nfc_baud_rate.NBR_424⟩ MAX_CANDIDATES w).1.2
      (call_list_passive_targets E
        ⟨nfc_modulation_type.NMT_FELICA, nfc_baud_rate.NBR_424⟩ MAX_CANDIDATES w).1.1.toNat
      0 tags tc
      (call_list_passive_targets E
        ⟨nfc_modulation_type.NMT_FELICA, nfc_baud_rate.NBR_424⟩ MAX_CANDIDATES w).2
    refine ⟨L, ?_, d1⟩
    rw [h1, hpoll]
    simp

theorem first_poll_opening (E : Env σ η) (w : World σ η) :
    (first_poll E w).2.log = w.log ++ opening_calls :=
  first_poll_log E w

theorem freefare_get_tags_malloc_fails (E : Env σ η) (w : World σ η)
    (hp1 : 0 ≤ (first_poll E w).1.1) (hm : (E.malloc 1 w.heap).1 = false) :
    freefare_get_tags E w = (none, (call_malloc E 1 (first_poll E w).2).2) := by
  have hm2 : call_malloc E 1 (first_poll E w).2
      = (false, (call_malloc E 1 (first_poll E w).2).2) := by
    simp [call_malloc, first_poll_heap, hm]
  rw [freefare_get_tags_eq, if_neg (not_lt.mpr hp1)]
  rw [hm2]

theorem freefare_get_tags_calls (E : Env σ η) (w : World σ η) :
    ∃ rest, (freefare_get_tags E w).2.log = w.log ++ opening_calls ++ rest
      ∧ ∀ c ∈ rest, is_dispatch c = true ∨ c = felica_poll_call := by
  have hfp := first_poll_opening E w
  by_cases hp : (first_poll E w).1.1 < 0
  · refine ⟨[], ?_, by simp⟩
    rw [freefare_get_tags_eq, if_pos hp]
    simpa using hfp
  · have hp1 : 0 ≤ (first_poll E w).1.1 := not_lt.mp hp
    have hml : (call_malloc E 1 (first_poll E w).2).2.log = (first_poll E w).2.log := rfl
    cases hm : (E.malloc 1 w.heap).1 with
    | false =>
      refine ⟨[], ?_, by simp⟩
      rw [freefare_get_tags_malloc_fails E w hp1 hm]
      simpa [hml] using hfp
    | true =>
      obtain ⟨L, h1, d1⟩ := tags_loop_calls E (first_poll E w).1.2
        (first_poll E w).1.1.toNat 0 (collection []) 0 (call_malloc E 1 (first_poll E w).2).2
      rw [freefare_get_tags_malloc E w hp1 hm]
      rcases hl : tags_loop E (first_poll E w).1.2 (first_poll E w).1.1.toNat 0
          (collection []) 0 (call_malloc E 1 (first_poll E w).2).2 with ⟨ex, w3⟩
      rw [hl] at h1
      simp only [] at h1
      cases ex with
      | returned tags1 =>
        refine ⟨L, ?_, fun c hc => Or.inl (d1 c hc)⟩
        simp only []
        rw [h1, hml, hfp]
      | finished tags1 tc =>
        obtain ⟨L2, h2, d2⟩ := felica_round_calls E tags1 tc w3
        refine ⟨L ++ felica_poll_call :: L2, ?_, ?_⟩
        · simp only []
          rw [h2, h1, hml, hfp]
          simp
        · intro c hc
          simp only [List.mem_append, List.mem_cons] at hc
          rcases hc with hc | rfl | hc
          · exact Or.inl (d1 c hc)
          · exact Or.inr rfl
          · exact Or.inl (d2 c hc)

/-- C14. On every run of `freefare_get_tags` the calls start with: initialise
the initiator; field off; CRC handling on; parity handling on; automatic
ISO14443-4 on; field on; passive poll for ISO14443A at 106 kbps, at most 16
candidates.  None of these is a call of the dispatcher, and whatever follows is
a call of the dispatcher or the FeliCA poll.  If the first poll succeeds and no
allocation fails, what follows is the dispatch of the first-round candidates,
then one FeliCA poll at 424 kbps with at most 16 candidates, then dispatcher
calls only: there is no other poll. -/
theorem freefare_get_tags_call_order (E : Env σ η) (w : World σ η) :
    (∃ rest, (freefare_get_tags E w).2.log = w.log ++ opening_calls ++ rest
      ∧ ∀ c ∈ rest, is_dispatch c = true ∨ c = felica_poll_call)
    ∧ opening_calls
        = [Call.nfc_initiator_init,
           Call.nfc_device_set_property_bool nfc_property.NP_ACTIVATE_FIELD false,
           Call.nfc_device_set_property_bool nfc_property.NP_HANDLE_CRC true,
           Call.nfc_device_set_property_bool nfc_property.NP_HANDLE_PARITY true,
           Call.nfc_device_set_property_bool nfc_property.NP_AUTO_ISO14443_4 true,
           Call.nfc_device_set_property_bool nfc_property.NP_ACTIVATE_FIELD true,
           Call.nfc_initiator_list_passive_targets
             ⟨nfc_modulation_type.NMT_ISO14443A, nfc_baud_rate.NBR_106⟩ 16]
    ∧ (∀ c ∈ opening_calls, is_dispatch c = false)
    ∧ felica_poll_call
        = Call.nfc_initiator_list_passive_targets
            ⟨nfc_modulation_type.NMT_FELICA, nfc_baud_rate.NBR_424⟩ 16
    ∧ (0 ≤ (first_poll E w).1.1 → (∀ n h, (E.malloc n h).1 = true) →
        (∀ n h, (E.realloc n h).1 = true) →
        ∃ L1 L2, (first_round E w).2.log = w.log ++ opening_calls ++ L1
          ∧ (freefare_get_tags E w).2.log
              = w.log ++ opening_calls ++ L1 ++ felica_poll_call :: L2
          ∧ (∀ c ∈ L1, is_dispatch c = true) ∧ (∀ c ∈ L2, is_dispatch c = true)) := by
  refine ⟨freefare_get_tags_calls E w, rfl, by decide, rfl, ?_⟩
  intro hp1 hm hr
  obtain ⟨w3, h1, hsd⟩ := first_loop_finishes E w ((first_round E w).1.length + 2)
    (fun m h _ => hr m h) (le_refl _)
  obtain ⟨L1, hL1, d1⟩ := identify_all_calls E (candidates_of (first_poll E w).1)
    (first_poll E w).2
  have hfr : (first_round E w).2.log = w.log ++ opening_calls ++ L1 := by
    unfold first_round
    rw [hL1, first_poll_opening]
  obtain ⟨L2, hL2, d2⟩ := felica_round_calls E (collection (first_round E w).1)
    (first_round E w).1.length w3
  refine ⟨L1, L2, hfr, ?_, d1, d2⟩
  rw [freefare_get_tags_malloc E w hp1 (hm 1 w.heap), h1]
  simp only []
  rw [hL2, hsd.2, hfr]

/-- C14, worked example: a run on the sample reader with one Classic 1k card
and one FeliCA card, both polls succeeding. -/
theorem freefare_get_tags_call_order_witness :
    0 ≤ (first_poll (sample_env [card_classic] [card_felica] true none none) world0).1.1
    ∧ ∃ L1 L2,
        (first_round (sample_env [card_classic] [card_felica] true none none) world0).2.log
          = world0.log ++ opening_calls ++ L1
        ∧ (freefare_get_tags (sample_env [card_classic] [card_felica] true none none)
            world0).2.log
          = world0.log ++ opening_calls ++ L1 ++ felica_poll_call :: L2
        ∧ (∀ c ∈ L1, is_dispatch c = true) ∧ (∀ c ∈ L2, is_dispatch c = true) :=
  ⟨by decide,
   (freefare_get_tags_call_order (sample_env [card_classic] [card_felica] true none none)
      world0).2.2.2.2 (by decide) (fun _ _ => rfl) (fun _ _ => rfl)⟩

/-! ## The invariant of the collection -/

theorem realloc_block_length {α : Type} (old : List (Cell α)) (n : Nat) :
    (realloc_block old n).length = n := by
  simp only [realloc_block, List.length_append, List.length_take, List.length_replicate]
  omega

theorem realloc_block_getElem? {α : Type} (old : List (Cell α)) (n i : Nat)
    (hi : i < old.length) (hn : i < n) : (realloc_block old n)[i]? = old[i]? := by
  have hlt : i < (old.take n).length := by
    simp only [List.length_take]
    omega
  simp only [realloc_block]
  rw [List.getElem?_append_left hlt, List.getElem?_take_of_lt hn]

theorem tags_inv_initial :
    tags_inv ((malloc_block (Option FreefareTag) 1).set 0 (Cell.val none)) 0 := by
  refine ⟨fun i hi => absurd hi (Nat.not_lt_zero i), rfl, ?_⟩
  simp [malloc_block]

theorem tags_inv_append (tags : TagArray) (tc : Nat) (t : FreefareTag)
    (h : tags_inv tags tc) :
    tc + 1 < (realloc_block tags (tc + 2)).length
      ∧ tags_inv (((realloc_block tags (tc + 2)).set tc (Cell.val (some t))).set (tc + 1)
          (Cell.val none)) (tc + 1) := by
  obtain ⟨hlow, _, hcap⟩ := h
  have hlen := realloc_block_length tags (tc + 2)
  refine ⟨by omega, ?_, ?_, ?_⟩
  · intro i hi
    by_cases hit : i = tc
    · refine ⟨t, ?_⟩
      subst hit
      rw [List.getElem?_set_ne (by omega), List.getElem?_set_self (by omega)]
    · have hi' : i < tc := by omega
      obtain ⟨x, hx⟩ := hlow i hi'
      refine ⟨x, ?_⟩
      rw [List.getElem?_set_ne (by omega), List.getElem?_set_ne (by omega),
        realloc_block_getElem? tags (tc + 2) i (by omega) (by omega), hx]
  · rw [List.getElem?_set_self (by simp only [List.length_set]; omega)]
  · simp only [List.length_set, hlen]
    omega

theorem tags_loop_inv (E : Env σ η) (cands : Nat → nfc_target) :
    ∀ (n c : Nat) (tags : TagArray) (tc : Nat) (w : World σ η), tags_inv tags tc →
      ∃ tags2 tc2,
        ((tags_loop E cands n c tags tc w).1 = LoopExit.finished tags2 tc2
          ∨ (tags_loop E cands n c tags tc w).1 = LoopExit.returned tags2)
        ∧ tags_inv tags2 tc2 ∧ tc ≤ tc2
  | 0, c, tags, tc, w, h => ⟨tags, tc, Or.inl rfl, h, le_refl _⟩
  | n + 1, c, tags, tc, w, h => by
    cases hh : (freefare_tag_new E (cands c) w).1 with
    | none =>
      rw [tags_loop_succ_none E cands n c tags tc w hh]
      exact tags_loop_inv E cands n (c + 1) tags tc _ h
    | some t =>
      cases ha : (E.realloc (tc + 2) (freefare_tag_new E (cands c) w).2.heap).1 with
      | false =>
        rw [tags_loop_succ_fail E cands n c tags tc w t hh ha]
        exact ⟨tags, tc, Or.inr rfl, h, le_refl _⟩
      | true =>
        rw [tags_loop_succ_grow E cands n c tags tc w t hh ha]
        obtain ⟨tags2, tc2, hex, hinv, hle⟩ := tags_loop_inv E cands n (c + 1) _ (tc + 1)
          (call_realloc E (tc + 2) (freefare_tag_new E (cands c) w).2).2
          (tags_inv_append tags tc t h).2
        exact ⟨tags2, tc2, hex, hinv, by omega⟩

theorem felica_round_inv (E : Env σ η) (tags : TagArray) (tc : Nat) (w : World σ η)
    (h : tags_inv tags tc) (r : TagArray) (hr : (felica_round E tags tc w).1 = some r) :
    ∃ tc2, tags_inv r tc2 ∧ tc ≤ tc2 := by
  rw [felica_round_eq] at hr
  by_cases hp : (call_list_passive_targets E
      ⟨nfc_modulation_type.NMT_FELICA, nfc_baud_rate.NBR_424⟩ MAX_CANDIDATES w).1.1 < 0
  · rw [if_pos hp] at hr
    cases hr
  · rw [if_neg hp] at hr
    obtain ⟨tags2, tc2, hex, hinv, hle⟩ := tags_loop_inv E
      (call_list_passive_targets E
        ⟨nfc_modulation_type.NMT_FELICA, nfc_baud_rate.NBR_424⟩ MAX_CANDIDATES w).1.2
      (call_list_passive_targets E
        ⟨nfc_modulation_type.NMT_FELICA, nfc_baud_rate.NBR_424⟩ MAX_CANDIDATES w).1.1.toNat
      0 tags tc
      (call_list_passive_targets E
        ⟨nfc_modulation_type.NMT_FELICA, nfc_baud_rate.NBR_424⟩ MAX_CANDIDATES w).2 h
    rcases hl : tags_loop E
        (call_list_passive_targets E
          ⟨nfc_modulation_type.NMT_FELICA, nfc_baud_rate.NBR_424⟩ MAX_CANDIDATES w).1.2
        (call_list_passive_targets E
          ⟨nfc_modulation_type.NMT_FELICA, nfc_baud_rate.NBR_424⟩ MAX_CANDIDATES w).1.1.toNat
        0 tags tc
        (call_list_passive_targets E
          ⟨nfc_modulation_type.NMT_FELICA, nfc_baud_rate.NBR_424⟩ MAX_CANDIDATES w).2
      with ⟨ex, w2⟩
    rw [hl] at hr hex
    cases ex with
    | returned tags1 =>
      cases hr
      rcases hex with hex | hex
      · cases hex
      · cases hex
        exact ⟨tc2, hinv, hle⟩
    | finished tags1 tc1 =>
      cases hr
      rcases hex with hex | hex
      · cases hex
        exact ⟨tc2, hinv, hle⟩
      · cases hex

theorem freefare_get_tags_inv (E : Env σ η) (w : World σ η) (r : TagArray)
    (hr : (freefare_get_tags E w).1 = some r) : ∃ tc, tags_inv r tc := by
  by_cases hp : (first_poll E w).1.1 < 0
  · rw [freefare_get_tags_eq, if_pos hp] at hr
    cases hr
  · have hp1 : 0 ≤ (first_poll E w).1.1 := not_lt.mp hp
    cases hm : (E.malloc 1 w.heap).1 with
    | false =>
      rw [freefare_get_tags_malloc_fails E w hp1 hm] at hr
      cases hr
    | true =>
      rw [freefare_get_tags_malloc E w hp1 hm] at hr
      obtain ⟨tags2, tc2, hex, hinv, _⟩ := tags_loop_inv E (first_poll E w).1.2
        (first_poll E w).1.1.toNat 0 (collection []) 0
        (call_malloc E 1 (first_poll E w).2).2 tags_inv_initial
      rcases hl : tags_loop E (first_poll E w).1.2 (first_poll E w).1.1.toNat 0
          (collection []) 0 (call_malloc E 1 (first_poll E w).2).2 with ⟨ex, w3⟩
      rw [hl] at hr hex
      cases ex with
      | returned tags1 =>
        cases hr
        rcases hex with hex | hex
        · cases hex
        · cases hex
          exact ⟨tc2, hinv⟩
      | finished tags1 tc1 =>
        rcases hex with hex | hex
        · cases hex
          obtain ⟨tc3, h3, _⟩ := felica_round_inv E _ _ w3 hinv r hr
          exact ⟨tc3, h3⟩
        · cases hex

/-- C15. The invariant of the collection in `freefare_get_tags`: slots below
`tag_count` hold non-null handles, slot `tag_count` holds `NULL`, and the block
has at least `tag_count + 1` slots.  (1) It holds after the initial allocation,
whose store to `tags[0]` is inside the block.  (2) Every successful append
keeps it, for `tag_count + 1`, and its two stores, to `tags[tag_count]` and to
the slot after it, are inside the reallocated block.  (3) Either loop, started
in a state where it holds, ends (by finishing or by returning) in a state where
it holds, with a `tag_count` that is not smaller.  (4) Every array
`freefare_get_tags` returns satisfies it for some `tag_count`. -/
theorem freefare_get_tags_invariant (E : Env σ η) :
    (0 < (malloc_block (Option FreefareTag) 1).length
      ∧ tags_inv ((malloc_block (Option FreefareTag) 1).set 0 (Cell.val none)) 0)
    ∧ (∀ (tags : TagArray) (tc : Nat) (t : FreefareTag), tags_inv tags tc →
        tc + 1 < (realloc_block tags (tc + 2)).length
          ∧ tags_inv (((realloc_block tags (tc + 2)).set tc (Cell.val (some t))).set (tc + 1)
              (Cell.val none)) (tc + 1))
    ∧ (∀ (cands : Nat → nfc_target) (n c : Nat) (tags : TagArray) (tc : Nat)
        (w : World σ η), tags_inv tags tc →
        ∃ tags2 tc2,
          ((tags_loop E cands n c tags tc w).1 = LoopExit.finished tags2 tc2
            ∨ (tags_loop E cands n c tags tc w).1 = LoopExit.returned tags2)
          ∧ tags_inv tags2 tc2 ∧ tc ≤ tc2)
    ∧ (∀ (w : World σ η) (r : TagArray), (freefare_get_tags E w).1 = some r →
        ∃ tc, (∀ i, i < tc → ∃ h, r[i]? = some (Cell.val (some h)))
          ∧ r[tc]? = some (Cell.val none) ∧ tc + 1 ≤ r.length) :=
  ⟨⟨by decide, tags_inv_initial⟩, tags_inv_append, tags_loop_inv E,
    fun w r hr => freefare_get_tags_inv E w r hr⟩

/-- C15, worked example: the array returned for three ISO14443A cards, one of
them unknown, and one FeliCA card. -/
theorem freefare_get_tags_invariant_witness :
    ∃ tc, (∀ i, i < tc → ∃ h,
          (collection [tag_of freefare_tag_type.MIFARE_CLASSIC_1K card_classic,
            tag_of freefare_tag_type.MIFARE_ULTRALIGHT_C card_ultralight,
            tag_of freefare_tag_type.FELICA card_felica])[i]? = some (Cell.val (some h)))
      ∧ (collection [tag_of freefare_tag_type.MIFARE_CLASSIC_1K card_classic,
            tag_of freefare_tag_type.MIFARE_ULTRALIGHT_C card_ultralight,
            tag_of freefare_tag_type.FELICA card_felica])[tc]? = some (Cell.val none)
      ∧ tc + 1 ≤ (collection [tag_of freefare_tag_type.MIFARE_CLASSIC_1K card_classic,
            tag_of freefare_tag_type.MIFARE_ULTRALIGHT_C card_ultralight,
            tag_of freefare_tag_type.FELICA card_felica]).length :=
  (freefare_get_tags_invariant
      (sample_env [card_classic, card_unknown, card_ultralight] [card_felica] true none
        none)).2.2.2 world0 _ (by decide)

/-! ## Decoding the UID string -/

theorem hexval_hexdigit : ∀ d, d < 16 → hexval (hexdigit d) = d := by
  decide

theorem hex_decode_encode :
    ∀ bs : List Nat, (∀ b ∈ bs, b < 256) → hex_decode (hex_encode bs) = bs
  | [], _ => rfl
  | b :: bs, hb => by
    have hb0 : b < 256 := hb b (List.mem_cons_self _ _)
    have ih := hex_decode_encode bs (fun x hx => hb x (List.mem_cons_of_mem _ hx))
    have h1 : hexval (hexdigit (b / 16)) = b / 16 := hexval_hexdigit _ (by omega)
    have h2 : hexval (hexdigit (b % 16)) = b % 16 := hexval_hexdigit _ (by omega)
    simp only [hex_encode, hex_decode, h1, h2, ih]
    congr 1
    omega

theorem cbuffer_injective {s1 s2 : List Char} (h : cbuffer s1 = cbuffer s2) : s1 = s2 := by
  have h1 : s1.map Cell.val = s2.map Cell.val := List.append_cancel_right h
  exact List.map_injective_iff.mpr (fun a b hab => by cases hab; rfl) h1

theorem uid_bytes_length (tag : FreefareTag)
    (hlen : tag.info.nti.nai.szUidLen ≤ tag.info.nti.nai.abtUid.length) :
    (uid_bytes tag).length = tag.info.nti.nai.szUidLen := by
  simp [uid_bytes, hlen]

/-- C19 (amended).  For two ISO14443A handles with UID lengths at least 1, the
UID bytes lying in `abtUid`, and both allocations succeeding: the buffers
`freefare_get_tag_uid` returns are equal if and only if the two handles have
the same UID length and the same UID bytes, and so are the strings read from
them; the string of a handle is the hex encoding of its UID, and decoding it
gives back the UID bytes. -/
theorem freefare_get_tag_uid_injective (E : Env σ η) (tag1 tag2 : FreefareTag)
    (w1 w2 : World σ η)
    (hnm1 : tag1.info.nm.nmt = nfc_modulation_type.NMT_ISO14443A)
    (hnm2 : tag2.info.nm.nmt = nfc_modulation_type.NMT_ISO14443A)
    (hn1 : 1 ≤ tag1.info.nti.nai.szUidLen) (hn2 : 1 ≤ tag2.info.nti.nai.szUidLen)
    (hlen1 : tag1.info.nti.nai.szUidLen ≤ tag1.info.nti.nai.abtUid.length)
    (hlen2 : tag2.info.nti.nai.szUidLen ≤ tag2.info.nti.nai.abtUid.length)
    (hm1 : (E.malloc (2 * tag1.info.nti.nai.szUidLen + 1) w1.heap).1 = true)
    (hm2 : (E.malloc (2 * tag2.info.nti.nai.szUidLen + 1) w2.heap).1 = true) :
    ((freefare_get_tag_uid E tag1 w1).1 = (freefare_get_tag_uid E tag2 w2).1
        ↔ tag1.info.nti.nai.szUidLen = tag2.info.nti.nai.szUidLen
          ∧ uid_bytes tag1 = uid_bytes tag2)
    ∧ ((freefare_get_tag_uid E tag1 w1).1.bind cstring
          = (freefare_get_tag_uid E tag2 w2).1.bind cstring
        ↔ tag1.info.nti.nai.szUidLen = tag2.info.nti.nai.szUidLen
          ∧ uid_bytes tag1 = uid_bytes tag2)
    ∧ (freefare_get_tag_uid E tag1 w1).1.bind cstring = some (hex_encode (uid_bytes tag1))
    ∧ hex_decode (hex_encode (uid_bytes tag1)) = uid_bytes tag1 := by
  have hb1 : ∀ b ∈ uid_bytes tag1, b < 256 := mod_bytes_lt _
  have hb2 : ∀ b ∈ uid_bytes tag2, b < 256 := mod_bytes_lt _
  have h1 := uid_iso14443a_buffer E tag1 w1 hnm1 hn1 hlen1 hm1
  have h2 := uid_iso14443a_buffer E tag2 w2 hnm2 hn2 hlen2 hm2
  have hs1 : (freefare_get_tag_uid E tag1 w1).1.bind cstring
      = some (hex_encode (uid_bytes tag1)) := by
    rw [h1]
    exact cstring_cbuffer _ (fun c hc => (hex_encode_mem _ hb1 c hc).2)
  have hs2 : (freefare_get_tag_uid E tag2 w2).1.bind cstring
      = some (hex_encode (uid_bytes tag2)) := by
    rw [h2]
    exact cstring_cbuffer _ (fun c hc => (hex_encode_mem _ hb2 c hc).2)
  have hdec : ∀ {x y : List Char}, x = hex_encode (uid_bytes tag1) →
      y = hex_encode (uid_bytes tag2) → x = y →
      tag1.info.nti.nai.szUidLen = tag2.info.nti.nai.szUidLen
        ∧ uid_bytes tag1 = uid_bytes tag2 := by
    intro x y hx hy hxy
    have he : hex_encode (uid_bytes tag1) = hex_encode (uid_bytes tag2) := by
      rw [← hx, ← hy, hxy]
    have hu : uid_bytes tag1 = uid_bytes tag2 := by
      rw [← hex_decode_encode _ hb1, ← hex_decode_encode _ hb2, he]
    refine ⟨?_, hu⟩
    rw [← uid_bytes_length tag1 hlen1, ← uid_bytes_length tag2 hlen2, hu]
  refine ⟨⟨fun h => ?_, fun h => ?_⟩, ⟨fun h => ?_, fun h => ?_⟩, hs1,
    hex_decode_encode _ hb1⟩
  · rw [h1, h2, Option.some.injEq] at h
    exact hdec rfl rfl (cbuffer_injective h)
  · rw [h1, h2, h.2]
  · rw [hs1, hs2, Option.some.injEq] at h
    exact hdec rfl rfl h
  · rw [hs1, hs2, h.2]

/-- C19, worked example: the handles with UIDs `DE AD BE EF` and `01 02 03 04`
get different strings. -/
theorem freefare_get_tag_uid_injective_witness :
    (freefare_get_tag_uid (sample_env [] [] true none none)
        (classic_tag [0xDE, 0xAD, 0xBE, 0xEF]) world0).1
      ≠ (freefare_get_tag_uid (sample_env [] [] true none none)
        (classic_tag [1, 2, 3, 4]) world0).1 :=
  fun h =>
    absurd
      ((freefare_get_tag_uid_injective (sample_env [] [] true none none)
          (classic_tag [0xDE, 0xAD, 0xBE, 0xEF]) (classic_tag [1, 2, 3, 4]) world0 world0
          rfl rfl (by decide) (by decide) (by decide) (by decide) rfl rfl).1.mp h).2
      (by decide)

/-- C19 as stated fails.  (1) With the allocation refused, the handles with UIDs
`DE AD BE EF` and `01 02 03 04` both get `NULL`: the results are equal, the UID
bytes are not.  (2) For a handle with UID length 0 no string can be read from
the block returned. -/
theorem freefare_get_tag_uid_injective_counterexample :
    (freefare_get_tag_uid (sample_env [] [] true none (some 9))
        (classic_tag [0xDE, 0xAD, 0xBE, 0xEF]) world0).1
      = (freefare_get_tag_uid (sample_env [] [] true none (some 9))
        (classic_tag [1, 2, 3, 4]) world0).1
    ∧ uid_bytes (classic_tag [0xDE, 0xAD, 0xBE, 0xEF]) ≠ uid_bytes (classic_tag [1, 2, 3, 4])
    ∧ (freefare_get_tag_uid (sample_env [] [] true none none) (classic_tag [])
        world0).1.bind cstring = none := by
  decide

end Freefare
